import Mathlib

/-!
Verification of the serial communication layer of the miniseg balancing-robot
controller (src/controller/src/communication/comm.cpp, comm.hpp).

The development is a shallow embedding of the `Communication` class.  Buffers
are modelled as total functions `Nat → Nat` (the C `char` arrays, one byte per
index, initialised to 0), offsets and lengths as `Nat` (the C `size_t` and
`uint16_t` values all stay far below their wrap-around points in reachable
states; where C unsigned wrap-around is observable — the Body-state progress
test of `receive_packet` — it is modelled exactly with arithmetic mod 2^64 via
`usub`).

The payload codec (ArduinoJson's `serializeJson`/`deserializeJson`/
`measureJson`) is an external library, out of scope of the repository; it is
modelled abstractly by a `Codec` structure: `encode` gives the serialized
bytes of a record's document (`measureJson` is its length), `decode` is
`deserializeJson`, `errText` the error's `f_str()` text.  Likewise the JSON
wrapping `{"msg": ...}` of diagnostic messages is abstract: diagnostics
submitted by the receive path through `message_enqueue_for_transmit` are
recorded in the ghost field `diags_sent` (content of the status-message buffer
at submission time).  The ghost field `rx_resets` logs every program point
that sets `rx_buf_tail` and `rx_buf_head` to 0 together, with the values both
had just before; ghost fields never influence any computed data.

`receive_packet`'s main loop can fail to terminate in the C code (a byte that
is not the start token while `rx_state == 0` is re-read forever); the loop is
therefore run on fuel and returns `none` exactly when the C loop diverges.
-/

/-- Capacity of the software receive buffer (comm.hpp `RX_BUFFER_SIZE`). -/
def RX_BUFFER_SIZE : Nat := 1500

/-- Capacity of the software transmit buffer (comm.hpp `TX_BUFFER_SIZE`). -/
def TX_BUFFER_SIZE : Nat := 1500

/-- Capacity of the diagnostic status-message buffer
(comm.hpp `TX_STATUS_MSG_BUFFER_SIZE`). -/
def TX_STATUS_MSG_BUFFER_SIZE : Nat := 128

/-- Size of the truncation-indicator array, terminator included
(comm.hpp `TX_STATUS_MSG_TRUNC_IND_SIZE`). -/
def TX_STATUS_MSG_TRUNC_IND_SIZE : Nat := 5

/-- Character content of the truncation indicator `" ..."`
(comm.hpp `TX_STATUS_MSG_TRUNC_IND`; 4 characters plus the implicit NUL). -/
def TX_STATUS_MSG_TRUNC_IND : List Nat := [32, 46, 46, 46]

/-- The frame start token, the byte value of the character `$`
(comm.hpp `PACKET_START_TOKEN`). -/
def PACKET_START_TOKEN : Nat := 36

/-- Byte content of a Lean string literal, used for the fixed diagnostic
texts that the C code stores as flash strings. -/
def str2bytes (s : String) : List Nat := s.toList.map Char.toNat

/-- comm.cpp line 68: text of the incomplete-previous-packet warning. -/
def MSG_PREVIOUS_PACKET_INCOMPLETE : List Nat :=
  str2bytes ("Warning: PREVIOUS_PACKET_INCOMPLETE")

/-- comm.cpp line 47: text of the hardware-buffer-nearly-full warning. -/
def MSG_INSUFFICIENT_RECEIVE_RATE : List Nat :=
  str2bytes ("Receive Warning: INSUFFICIENT_RECEIVE_RATE")

/-- comm.cpp line 52: text of the software-buffer-overflow error. -/
def MSG_INCOMING_DATA_RATE_TOO_FAST : List Nat :=
  str2bytes ("Receive Error: INCOMING_DATA_RATE_TOO_FAST")

/-- comm.cpp line 117: first piece of the deserialization diagnostic. -/
def MSG_ERROR_HEAD : List Nat := str2bytes ("Error: ")

/-- comm.cpp line 119: third piece of the deserialization diagnostic. -/
def MSG_WHEN_DESERIALIZING : List Nat := str2bytes (" when deserializing: ")

/-- Return codes of the receive side (comm.hpp `Communication::ReceiveCode`). -/
inductive ReceiveCode where
  | NO_DATA_AVAILABLE
  | PACKET_RECEIVED
  | RX_IN_PROGRESS
  | MESSAGE_EXCEEDS_RX_BUFFER_SIZE
  | DESERIALIZATION_FAILED
deriving DecidableEq

/-- Return codes of the transmit side (comm.hpp `Communication::TransmitCode`). -/
inductive TransmitCode where
  | TX_SUCCESS
  | TX_DOC_OVERFLOW
  | TX_BUFFER_TOO_SMALL_TO_FIT_DATA
  | TRANSMIT_RATE_TOO_LOW
deriving DecidableEq

/-- Abstract model of an ArduinoJson document holding serialized payload
bytes: `bytes` is the serialization (`measureJson` is `bytes.length`), and
`overflowed` the `JsonDocument::overflowed()` flag. -/
structure JsonDoc where
  bytes : List Nat
  overflowed : Bool

/-- Abstract boundary of the external payload codec (ArduinoJson). -/
structure Codec (ρ : Type) where
  decode : List Nat → Option ρ
  errText : List Nat → List Nat
  encode : ρ → List Nat

/-- Ghost record of one joint reset of `rx_buf_tail`/`rx_buf_head` to 0:
`site` identifies the program point (0 = feeder overflow, comm.cpp lines
53-54; 1 = oversized-length rejection, lines 92-93; 2 = drained-buffer
recycling, lines 108-109), `t`/`h` are the values of `rx_buf_tail` and
`rx_buf_head` just before the reset. -/
structure ResetEv where
  site : Nat
  t : Nat
  h : Nat
deriving DecidableEq

/-- State of the `Communication` instance (comm.hpp data members), plus the
ghost fields `diags_sent` and `rx_resets`. -/
structure CommState (ρ : Type) where
  RX_BUFFER : Nat → Nat
  rx_buf_tail : Nat
  rx_buf_head : Nat
  rx_state : Nat
  rx_message_start : Nat
  rx_message_length : Nat
  rx_data : ρ
  TX_BUFFER : Nat → Nat
  tx_buf_tail : Nat
  tx_buf_head : Nat
  TX_STATUS_MSG_BUFFER : List Nat
  led : Bool
  diags_sent : List (List Nat)
  rx_resets : List ResetEv

/-- The freshly constructed `Communication` instance: zero-filled buffers,
all offsets 0, `rx_state` 0, message buffer cleared by the constructor. -/
def initComm {ρ : Type} (r0 : ρ) : CommState ρ where
  RX_BUFFER := fun _ => 0
  rx_buf_tail := 0
  rx_buf_head := 0
  rx_state := 0
  rx_message_start := 0
  rx_message_length := 0
  rx_data := r0
  TX_BUFFER := fun _ => 0
  tx_buf_tail := 0
  tx_buf_head := 0
  TX_STATUS_MSG_BUFFER := []
  led := false
  diags_sent := []
  rx_resets := []

/-- C unsigned 64-bit (`size_t`) subtraction: `(a - b) mod 2^64` for
`a, b < 2^64`. -/
def usub (a b : Nat) : Nat := (a + (2 ^ 64 - b % 2 ^ 64)) % 2 ^ 64

/-- The bytes of buffer `buf` at positions `p, p+1, ..., p+n-1`. -/
def bufBytes (buf : Nat → Nat) (p n : Nat) : List Nat :=
  (List.range' p n).map buf

/-- Write the byte list `bs` into buffer `buf` starting at position `p`. -/
def writeBytes (buf : Nat → Nat) (p : Nat) (bs : List Nat) : Nat → Nat :=
  fun i => if p ≤ i ∧ i < p + bs.length then bs.getD (i - p) 0 else buf i

/-- `strlen(buf + p)`: number of bytes before the first NUL at or after
position `p`.  The C scan is unbounded; the model stops at the end of the
buffer array (`RX_BUFFER_SIZE`), which agrees with the C behaviour whenever a
NUL exists in range (beyond the array the C scan is undefined behaviour). -/
def cstrlen (buf : Nat → Nat) (p : Nat) : Nat :=
  ((bufBytes buf p (RX_BUFFER_SIZE - p)).takeWhile (fun c => c != 0)).length

/-- Effect on the stored C string of `strlcpy(BUF + (SIZE - 5), " ...", 5)`
(comm.cpp lines 222/233): if the current string reaches position `SIZE - 5`
the tail from there on becomes `" ..."`; a shorter string is untouched, the
marker landing beyond its terminator. -/
def apply_trunc_ind (mb : List Nat) : List Nat :=
  if mb.length < TX_STATUS_MSG_BUFFER_SIZE - TX_STATUS_MSG_TRUNC_IND_SIZE then mb
  else mb.take (TX_STATUS_MSG_BUFFER_SIZE - TX_STATUS_MSG_TRUNC_IND_SIZE)
         ++ TX_STATUS_MSG_TRUNC_IND

/-- comm.cpp lines 216-225, `Communication::message_append(const
__FlashStringHelper *)`.  The message buffer is modelled as the list of
characters before its NUL terminator; `msg` is the appended C string (its
characters, NUL-free by definition of a C string).  `strlcpy` copies at most
`size - 1` characters and returns `strlen(msg)`; when not everything fitted,
the truncation indicator is written over the end of the buffer. -/
def message_append (mb : List Nat) (msg : List Nat) : Bool × List Nat :=
  let existing_len := mb.length
  let append_len := msg.length
  let stored := mb ++ msg.take (TX_STATUS_MSG_BUFFER_SIZE - existing_len - 1)
  if append_len < TX_STATUS_MSG_BUFFER_SIZE - existing_len then (true, stored)
  else (false, apply_trunc_ind stored)

/-- comm.cpp lines 227-236, `Communication::message_append(const char *,
size_t)`.  The source is a raw region of `RX_BUFFER` starting at `p` with
claimed length `msg_len`; `strlcpy` stops at a NUL or after
`min(msg_len + 1, space) - 1` characters, while its return value is the full
`strlen` of the source (which may scan past `msg_len`). -/
def message_append_bytes (buf : Nat → Nat) (mb : List Nat) (p msg_len : Nat) :
    Bool × List Nat :=
  let existing_len := mb.length
  let append_len := cstrlen buf p
  let size := min (msg_len + 1) (TX_STATUS_MSG_BUFFER_SIZE - existing_len)
  let src := (bufBytes buf p (RX_BUFFER_SIZE - p)).takeWhile (fun c => c != 0)
  let stored := mb ++ src.take (size - 1)
  if append_len < TX_STATUS_MSG_BUFFER_SIZE - existing_len then (true, stored)
  else (false, apply_trunc_ind stored)

/-- comm.cpp lines 270-272, `Communication::message_clear`. -/
def message_clear {ρ : Type} (st : CommState ρ) : CommState ρ :=
  { st with TX_STATUS_MSG_BUFFER := [] }

/-- Submission of a flash-string diagnostic through
`message_enqueue_for_transmit` as seen from the receive path (comm.cpp lines
238-245): append the text to the status-message buffer, hand the buffer
content to the transmit side wrapped in a `{"msg": ...}` document (the
wrapping and its serialization belong to the external codec and are recorded
in the ghost channel `diags_sent`), then clear the buffer. -/
def submit_diag {ρ : Type} (st : CommState ρ) (m : List Nat) : CommState ρ :=
  let mb := (message_append st.TX_STATUS_MSG_BUFFER m).2
  { st with TX_STATUS_MSG_BUFFER := [], diags_sent := st.diags_sent ++ [mb] }

/-- Submission of a raw-bytes diagnostic through
`message_enqueue_for_transmit(const char *, size_t)` (comm.cpp lines
247-254), at the same boundary as `submit_diag`. -/
def submit_diag_bytes {ρ : Type} (st : CommState ρ) (p msg_len : Nat) : CommState ρ :=
  let mb := (message_append_bytes st.RX_BUFFER st.TX_STATUS_MSG_BUFFER p msg_len).2
  { st with TX_STATUS_MSG_BUFFER := [], diags_sent := st.diags_sent ++ [mb] }

/-- comm.cpp lines 168-179, `Communication::build_packet`: if the destination
region (at offset `dest`, of size `dest_size`) cannot hold the 3-byte header
plus the serialized document, return 0 and leave the buffer alone; otherwise
serialize at `dest + 3`, write the start token and the big-endian length
(`highByte`/`lowByte`), and return the packet length. -/
def build_packet (tx_doc : JsonDoc) (dest dest_size : Nat) (buf : Nat → Nat) :
    Nat × (Nat → Nat) :=
  if dest_size < 3 + tx_doc.bytes.length then (0, buf)
  else
    let data_len := tx_doc.bytes.length
    let buf1 := writeBytes buf (dest + 3) tx_doc.bytes
    let buf2 := fun i =>
      if i = dest then PACKET_START_TOKEN
      else if i = dest + 1 then data_len / 256
      else if i = dest + 2 then data_len % 256
      else buf1 i
    (3 + data_len, buf2)

/-- comm.cpp lines 182-195, `Communication::enqueue_for_transmit`. -/
def enqueue_for_transmit {ρ : Type} (tx_doc : JsonDoc) (st : CommState ρ) :
    TransmitCode × CommState ρ :=
  if tx_doc.overflowed then (.TX_DOC_OVERFLOW, st)
  else
    let r := build_packet tx_doc st.tx_buf_head (TX_BUFFER_SIZE - st.tx_buf_head) st.TX_BUFFER
    if r.1 > 0 then
      (.TX_SUCCESS, { st with TX_BUFFER := r.2, tx_buf_head := st.tx_buf_head + r.1 })
    else if 3 + tx_doc.bytes.length > TX_BUFFER_SIZE then
      (.TX_BUFFER_TOO_SMALL_TO_FIT_DATA, st)
    else (.TRANSMIT_RATE_TOO_LOW, st)

/-- comm.cpp lines 199-214, `Communication::async_transmit`.  `avail` is the
value of `Serial.availableForWrite()`; the hardware write accepts exactly
`min(pending, avail)` bytes, which are returned as the emitted byte list.
The C return value (bytes still pending) is `tx_buf_head - tx_buf_tail` of
the returned state. -/
def async_transmit {ρ : Type} (avail : Nat) (st : CommState ρ) :
    List Nat × CommState ρ :=
  if st.tx_buf_head > st.tx_buf_tail then
    if avail > 0 then
      let n := min (st.tx_buf_head - st.tx_buf_tail) avail
      let sent := bufBytes st.TX_BUFFER st.tx_buf_tail n
      let tail1 := st.tx_buf_tail + n
      if tail1 = st.tx_buf_head then
        (sent, { st with tx_buf_tail := 0, tx_buf_head := 0 })
      else (sent, { st with tx_buf_tail := tail1 })
    else ([], st)
  else ([], st)

/-- Repeated `async_transmit` calls, one per entry of the schedule `sched` of
`Serial.availableForWrite()` values, concatenating the emitted bytes. -/
def drainAll {ρ : Type} : List Nat → CommState ρ → List Nat × CommState ρ
  | [], st => ([], st)
  | a :: rest, st =>
    let r1 := async_transmit a st
    let r2 := drainAll rest r1.2
    (r1.1 ++ r2.1, r2.2)

/-- comm.cpp lines 238-245, `Communication::message_enqueue_for_transmit
(const __FlashStringHelper *)`, in full: append the text, wrap the buffer
content into a status document (`wrap` stands for building and serializing
the `{"msg": ...}` document, which the external codec does), enqueue it on
the transmit buffer, then clear the message buffer unconditionally. -/
def message_enqueue_for_transmit {ρ : Type} (wrap : List Nat → JsonDoc)
    (msg : List Nat) (st : CommState ρ) : TransmitCode × CommState ρ :=
  let st1 := { st with TX_STATUS_MSG_BUFFER := (message_append st.TX_STATUS_MSG_BUFFER msg).2 }
  let r := enqueue_for_transmit (wrap st1.TX_STATUS_MSG_BUFFER) st1
  (r.1, message_clear r.2)

/-- comm.cpp lines 46-58, the loop body of
`Communication::rx_read_from_serial_to_local_buffer`: move bytes from the
hardware queue into `RX_BUFFER` at `rx_buf_head`; when the software buffer is
full, emit the overflow diagnostic, hard-reset both offsets to 0 (ghost-logged
as site 0) and stop, leaving the remaining bytes in the hardware queue (they
are returned unconsumed). -/
def rx_feed_loop {ρ : Type} : List Nat → CommState ρ → CommState ρ × List Nat
  | [], st => (st, [])
  | b :: rest, st =>
    if st.rx_buf_head < RX_BUFFER_SIZE then
      rx_feed_loop rest
        { st with
          RX_BUFFER := fun i => if i = st.rx_buf_head then b else st.RX_BUFFER i,
          rx_buf_head := st.rx_buf_head + 1 }
    else
      let st1 := submit_diag st MSG_INCOMING_DATA_RATE_TOO_FAST
      ({ st1 with
         rx_buf_tail := 0,
         rx_buf_head := 0,
         rx_resets := st1.rx_resets ++ [⟨0, st.rx_buf_tail, st.rx_buf_head⟩] },
       b :: rest)

/-- comm.cpp lines 46-58, `Communication::rx_read_from_serial_to_local_buffer`:
`bs` is the current content of the hardware receive queue
(`Serial.available()` is `bs.length`); a queue holding exactly 63 bytes (the
64-byte hardware buffer's full mark) first emits the insufficient-receive-rate
warning. -/
def rx_read_from_serial_to_local_buffer {ρ : Type} (bs : List Nat)
    (st : CommState ρ) : CommState ρ × List Nat :=
  rx_feed_loop bs (if bs.length = 63 then submit_diag st MSG_INSUFFICIENT_RECEIVE_RATE else st)

/-- comm.cpp lines 62-131, the `while (rx_buf_tail < rx_buf_head)` loop of
`Communication::receive_packet`, run on fuel.  Each iteration reads the byte
at `rx_buf_tail`.  A start token always restarts the frame (with a diagnostic
when a frame was in progress).  Otherwise the state machine advances:
state 1 and 2 consume the big-endian length (an oversized length resets the
whole buffer, ghost site 1, and returns), state 3 jumps `rx_buf_tail` by
position to `min(rx_message_length + rx_message_start, rx_buf_head)` and
either waits, or completes the frame: reset the machine, recycle the buffer
if drained (ghost site 2), and decode — on failure build and submit the
error diagnostic, on success store the record.  A byte that is no start token
while `rx_state` is 0 matches no `switch` case: the C loop re-reads it
forever, which the model renders as running out of fuel (`none`). -/
def rx_loop {ρ : Type} (codec : Codec ρ) :
    Nat → CommState ρ → Option (ReceiveCode × CommState ρ)
  | 0, _ => none
  | fuel + 1, st =>
    if st.rx_buf_tail < st.rx_buf_head then
      let b := st.RX_BUFFER st.rx_buf_tail
      if b = PACKET_START_TOKEN then
        let st1 := { st with led := true }
        let st2 := if st1.rx_state ≠ 0 then submit_diag st1 MSG_PREVIOUS_PACKET_INCOMPLETE else st1
        rx_loop codec fuel { st2 with rx_buf_tail := st2.rx_buf_tail + 1, rx_state := 1 }
      else
        match st.rx_state with
        | 1 =>
          rx_loop codec fuel
            { st with
              rx_message_length := b <<< 8,
              rx_buf_tail := st.rx_buf_tail + 1,
              rx_state := 2 }
        | 2 =>
          let len := st.rx_message_length ||| b
          if len > RX_BUFFER_SIZE then
            some (.MESSAGE_EXCEEDS_RX_BUFFER_SIZE,
              { st with
                rx_message_length := len,
                rx_state := 0,
                rx_buf_tail := 0,
                rx_buf_head := 0,
                rx_resets := st.rx_resets ++ [⟨1, st.rx_buf_tail, st.rx_buf_head⟩] })
          else
            rx_loop codec fuel
              { st with
                rx_message_length := len,
                rx_buf_tail := st.rx_buf_tail + 1,
                rx_message_start := st.rx_buf_tail + 1,
                rx_state := 3 }
        | 3 =>
          let tail1 := min (st.rx_message_length + st.rx_message_start) st.rx_buf_head
          if usub st.rx_message_length (usub tail1 st.rx_message_start) > 0 then
            some (.RX_IN_PROGRESS, { st with rx_buf_tail := tail1 })
          else
            let st1 := { st with rx_buf_tail := tail1, rx_state := 0 }
            let st2 :=
              if st1.rx_buf_tail = st1.rx_buf_head then
                { st1 with
                  rx_buf_tail := 0,
                  rx_buf_head := 0,
                  rx_resets := st1.rx_resets ++ [⟨2, st1.rx_buf_tail, st1.rx_buf_head⟩] }
              else st1
            let payload := bufBytes st2.RX_BUFFER st2.rx_message_start st2.rx_message_length
            match codec.decode payload with
            | none =>
              let st3 := { st2 with TX_STATUS_MSG_BUFFER :=
                (message_append st2.TX_STATUS_MSG_BUFFER MSG_ERROR_HEAD).2 }
              let st4 := { st3 with TX_STATUS_MSG_BUFFER :=
                (message_append st3.TX_STATUS_MSG_BUFFER (codec.errText payload)).2 }
              let st5 := { st4 with TX_STATUS_MSG_BUFFER :=
                (message_append st4.TX_STATUS_MSG_BUFFER MSG_WHEN_DESERIALIZING).2 }
              some (.DESERIALIZATION_FAILED,
                submit_diag_bytes st5 st5.rx_message_start st5.rx_message_length)
            | some r =>
              some (.PACKET_RECEIVED, { st2 with rx_data := r, led := false })
        | _ => rx_loop codec fuel st
    else some (.RX_IN_PROGRESS, st)

/-- comm.cpp lines 60-134, `Communication::receive_packet`: the early
no-data return, then the loop.  The fuel `rx_buf_head - rx_buf_tail + 1`
covers every terminating C execution (each non-returning iteration consumes
one byte), so `none` is returned exactly when the C loop runs forever. -/
def receive_packet {ρ : Type} (codec : Codec ρ) (st : CommState ρ) :
    Option (ReceiveCode × CommState ρ) :=
  if st.rx_buf_tail = st.rx_buf_head then some (.NO_DATA_AVAILABLE, st)
  else rx_loop codec (st.rx_buf_head - st.rx_buf_tail + 1) st

/-- Byte-at-a-time reception: feed one byte, then call `receive_packet`,
collecting the outcome of every call (`none` records a diverging call). -/
def feed_poll {ρ : Type} (codec : Codec ρ) :
    List Nat → CommState ρ → List (Option ReceiveCode) × CommState ρ
  | [], st => ([], st)
  | b :: rest, st =>
    let st1 := (rx_read_from_serial_to_local_buffer [b] st).1
    match receive_packet codec st1 with
    | none => ([none], st1)
    | some (c, st2) =>
      let r := feed_poll codec rest st2
      (some c :: r.1, r.2)

/-- The round-trip scenario of the spec's first testable property: from a
fresh instance, enqueue the record's document, drain the transmit buffer with
`async_transmit` under the schedule `sched`, feed every drained byte to the
receive side, and poll `receive_packet` once. -/
def round_trip {ρ : Type} (codec : Codec ρ) (r r0 : ρ) (sched : List Nat) :
    Option (ReceiveCode × CommState ρ) :=
  let st1 := (enqueue_for_transmit ⟨codec.encode r, false⟩ (initComm r0)).2
  let d := drainAll sched st1
  let st3 := (rx_read_from_serial_to_local_buffer d.1 d.2).1
  receive_packet codec st3

/-- A concrete stand-in for the external JSON codec, used to evaluate the
theorems on explicit inputs: records are the raw byte lists themselves, a
document is valid exactly when it starts with the byte of the character
`{` (123) — as with real JSON text, a valid document never starts with the
start token `$` — and the error text is a fixed ArduinoJson error string. -/
def jsonish : Codec (List Nat) where
  decode := fun bs => if bs.getD 0 0 = 123 then some bs else none
  errText := fun _ => str2bytes ("InvalidInput")
  encode := fun r => r

example : (receive_packet jsonish (initComm ([] : List Nat))).map Prod.fst
    = some .NO_DATA_AVAILABLE := by decide

example :
    ((receive_packet jsonish
      ((rx_read_from_serial_to_local_buffer [36, 0, 2, 123, 97]
        (initComm ([] : List Nat))).1)).map
      (fun p => (p.1, p.2.rx_data)))
    = some (.PACKET_RECEIVED, [123, 97]) := by decide

/-- A concrete receiver state in the Body state (frame of declared length 2
whose second payload byte is the start token `$`; the first payload byte is
the parameter), used to evaluate the C2 theorems. -/
def c2state (b0 : Nat) : CommState (List Nat) where
  RX_BUFFER := fun i => [36, 0, 2, b0, 36].getD i 0
  rx_buf_tail := 3
  rx_buf_head := 5
  rx_state := 3
  rx_message_start := 3
  rx_message_length := 2
  rx_data := []
  TX_BUFFER := fun _ => 0
  tx_buf_tail := 0
  tx_buf_head := 0
  TX_STATUS_MSG_BUFFER := []
  led := true
  diags_sent := []
  rx_resets := []

/-- A concrete receiver state in the Body state holding an undecodable
1-byte payload (`a`, which is no JSON document), used to evaluate the C6
theorem. -/
def c6state : CommState (List Nat) where
  RX_BUFFER := fun i => [36, 0, 1, 97].getD i 0
  rx_buf_tail := 3
  rx_buf_head := 4
  rx_state := 3
  rx_message_start := 3
  rx_message_length := 1
  rx_data := [123]
  TX_BUFFER := fun _ => 0
  tx_buf_tail := 0
  tx_buf_head := 0
  TX_STATUS_MSG_BUFFER := []
  led := true
  diags_sent := []
  rx_resets := []

/-- The single diagnostic submitted while receiving a frame with an
undecodable 200-byte payload from a fresh state, used against C6. -/
def c6longDiag : List Nat :=
  ((((receive_packet jsonish
      ((rx_read_from_serial_to_local_buffer ([36, 0, 200] ++ List.replicate 200 97)
        (initComm ([] : List Nat))).1)).getD
    (.NO_DATA_AVAILABLE, initComm ([] : List Nat))).2).diags_sent).getD 0 []

/-- Four fed bytes `$ FF FF x`: a declared length 65535 with one extra
buffered byte, used to exercise the oversized-length reset against C7. -/
def c7state : CommState (List Nat) :=
  (rx_read_from_serial_to_local_buffer [36, 255, 255, 120]
    (initComm ([] : List Nat))).1

/-- The state after polling `c7state` once. -/
def c7after : CommState (List Nat) :=
  ((receive_packet jsonish c7state).getD
    (.NO_DATA_AVAILABLE, initComm ([] : List Nat))).2

/-- The receiver state after feeding the bare header `$ 05 DA` (declared
length 1498 = capacity − 2) from a fresh instance and polling once: the
machine sits in the Body state of a frame that can never complete. -/
def c10state : CommState (List Nat) :=
  (((receive_packet jsonish
      ((rx_read_from_serial_to_local_buffer [36, 5, 218]
        (initComm ([] : List Nat))).1)).getD
    (.NO_DATA_AVAILABLE, initComm ([] : List Nat))).2)

/-- A Body-state record with `rx_message_length` 1498 and one unread
non-token byte, used to evaluate the C10 persistence conjunct. -/
def c10body : CommState (List Nat) where
  RX_BUFFER := fun i => [36, 5, 218, 120].getD i 0
  rx_buf_tail := 3
  rx_buf_head := 4
  rx_state := 3
  rx_message_start := 3
  rx_message_length := 1498
  rx_data := []
  TX_BUFFER := fun _ => 0
  tx_buf_tail := 0
  tx_buf_head := 0
  TX_STATUS_MSG_BUFFER := []
  led := true
  diags_sent := []
  rx_resets := []

/-- The state after receiving the complete frame held by `c2state 123`. -/
def c10after : CommState (List Nat) :=
  ((receive_packet jsonish (c2state 123)).getD
    (.NO_DATA_AVAILABLE, initComm ([] : List Nat))).2

/-- Receive buffer contents after feeding the start token to a fresh
instance, one byte at a time (C3 evaluation states). -/
def c3W1 : Nat → Nat := writeBytes (fun _ => 0) 0 [PACKET_START_TOKEN]

/-- ... then the high length byte. -/
def c3W2 (hi : Nat) : Nat → Nat := writeBytes c3W1 1 [hi]

/-- ... then the low length byte. -/
def c3W3 (hi lo : Nat) : Nat → Nat := writeBytes (c3W2 hi) 2 [lo]

/-- Fresh instance after feeding the start token (before the poll). -/
def c3S1 {ρ : Type} (r0 : ρ) : CommState ρ :=
  ⟨c3W1, 0, 1, 0, 0, 0, r0, fun _ => 0, 0, 0, [], false, [], []⟩

/-- ... after polling: token consumed, AwaitLengthHigh. -/
def c3S1b {ρ : Type} (r0 : ρ) : CommState ρ :=
  ⟨c3W1, 1, 1, 1, 0, 0, r0, fun _ => 0, 0, 0, [], true, [], []⟩

/-- ... after feeding the high length byte (before the poll). -/
def c3S2 {ρ : Type} (hi : Nat) (r0 : ρ) : CommState ρ :=
  ⟨c3W2 hi, 1, 2, 1, 0, 0, r0, fun _ => 0, 0, 0, [], true, [], []⟩

/-- ... after polling: AwaitLengthLow with the high byte latched. -/
def c3S2b {ρ : Type} (hi : Nat) (r0 : ρ) : CommState ρ :=
  ⟨c3W2 hi, 2, 2, 2, 0, hi <<< 8, r0, fun _ => 0, 0, 0, [], true, [], []⟩

/-- ... after feeding the low length byte (before the poll). -/
def c3S3 {ρ : Type} (hi lo : Nat) (r0 : ρ) : CommState ρ :=
  ⟨c3W3 hi lo, 2, 3, 2, 0, hi <<< 8, r0, fun _ => 0, 0, 0, [], true, [], []⟩

/-- ... after polling: Body state, full declared length, message start 3. -/
def c3S3b {ρ : Type} (hi lo : Nat) (r0 : ρ) : CommState ρ :=
  ⟨c3W3 hi lo, 3, 3, 3, 3, (hi <<< 8) ||| lo, r0, fun _ => 0, 0, 0, [], true, [], []⟩

/-! ## General lemmas about the embedding -/

theorem shiftLeft8_lor_eq (hi lo : Nat) (h : lo < 256) :
    (hi <<< 8) ||| lo = hi * 256 + lo := by
  apply Nat.eq_of_testBit_eq
  intro j
  rw [Nat.testBit_lor]
  have h2 : hi * 256 + lo = 2 ^ 8 * hi + lo := by ring_nf
  rw [h2, Nat.testBit_mul_pow_two_add hi (show lo < 2 ^ 8 by omega) j]
  rw [Nat.testBit_shiftLeft]
  by_cases hj : j < 8
  · simp [Nat.not_le.mpr hj, hj]
  · have hge : j ≥ 8 := Nat.le_of_not_lt hj
    have hlo : lo.testBit j = false := by
      apply Nat.testBit_eq_false_of_lt
      calc lo < 256 := h
        _ = 2 ^ 8 := by norm_num
        _ ≤ 2 ^ j := Nat.pow_le_pow_right (by norm_num) hge
    simp [hge, hj, hlo]

theorem body_wait_iff (len start head : Nat) (hlen : len < 65536)
    (hs : start < 4294967296) (hh : head < 4294967296) :
    (0 < usub len (usub (min (len + start) head) start) ↔ head < len + start) := by
  have h64 : (2 : Nat) ^ 64 = 18446744073709551616 := by norm_num
  simp only [usub, h64]
  omega

theorem bufBytes_succ (buf : Nat → Nat) (p n : Nat) :
    bufBytes buf p (n + 1) = buf p :: bufBytes buf (p + 1) n := by
  simp [bufBytes, List.range'_succ]

theorem bufBytes_append (buf : Nat → Nat) (p m n : Nat) :
    bufBytes buf p (m + n) = bufBytes buf p m ++ bufBytes buf (p + m) n := by
  induction m generalizing p with
  | zero => simp [bufBytes]
  | succ k ih =>
    rw [show k + 1 + n = (k + n) + 1 by omega, bufBytes_succ, bufBytes_succ, ih (p + 1)]
    rw [show p + 1 + k = p + (k + 1) by omega]
    simp

theorem bufBytes_length (buf : Nat → Nat) (p n : Nat) :
    (bufBytes buf p n).length = n := by simp [bufBytes]

theorem bufBytes_congr (f g : Nat → Nat) (p n : Nat)
    (h : ∀ i, p ≤ i → i < p + n → f i = g i) :
    bufBytes f p n = bufBytes g p n := by
  simp only [bufBytes]
  apply List.map_congr_left
  intro a ha
  rw [List.mem_range'_1] at ha
  exact h a ha.1 ha.2

theorem bufBytes_eq_of_getD (f : Nat → Nat) (p : Nat) (l : List Nat)
    (h : ∀ i, i < l.length → f (p + i) = l.getD i 0) :
    bufBytes f p l.length = l := by
  apply List.ext_getElem
  · simp [bufBytes]
  · intro i h1 h2
    simp only [bufBytes, List.getElem_map, List.getElem_range']
    rw [show p + 1 * i = p + i by ring, h i h2, List.getD_eq_getElem l 0 h2]

theorem writeBytes_getD (buf : Nat → Nat) (p : Nat) (bs : List Nat) (i : Nat)
    (h : i < bs.length) : writeBytes buf p bs (p + i) = bs.getD i 0 := by
  simp only [writeBytes]
  rw [if_pos ⟨Nat.le_add_right p i, by omega⟩]
  congr 1
  omega

theorem writeBytes_out (buf : Nat → Nat) (p : Nat) (bs : List Nat) (i : Nat)
    (h : i < p ∨ p + bs.length ≤ i) : writeBytes buf p bs i = buf i := by
  simp only [writeBytes]
  rw [if_neg]
  omega

theorem writeBytes_nil (buf : Nat → Nat) (p : Nat) :
    writeBytes buf p [] = buf := by
  funext i
  simp [writeBytes]

theorem writeBytes_snoc (buf : Nat → Nat) (p : Nat) (bs : List Nat) (b : Nat) :
    writeBytes buf p (bs ++ [b])
      = (fun i => if i = p + bs.length then b else writeBytes buf p bs i) := by
  funext i
  simp only [writeBytes, List.length_append, List.length_cons, List.length_nil]
  by_cases hi : i = p + bs.length
  · subst hi
    rw [if_pos (by omega), if_pos rfl]
    rw [show p + bs.length - p = bs.length by omega]
    rw [List.getD_append_right bs [b] 0 bs.length (by omega)]
    simp
  · by_cases hin : p ≤ i ∧ i < p + bs.length
    · rw [if_pos (by omega), if_neg hi, if_pos hin]
      rw [List.getD_append bs [b] 0 (i - p) (by omega)]
    · rw [if_neg (by omega), if_neg hi, if_neg hin]

theorem writeBytes_cons (buf : Nat → Nat) (p b : Nat) (bs : List Nat) :
    writeBytes buf p (b :: bs)
      = writeBytes (fun i => if i = p then b else buf i) (p + 1) bs := by
  funext i
  simp only [writeBytes, List.length_cons]
  by_cases hip : i = p
  · subst hip
    rw [if_pos (by omega), if_neg (by omega), if_pos rfl]
    simp
  · by_cases hin : p + 1 ≤ i ∧ i < p + 1 + bs.length
    · rw [if_pos (by omega), if_pos hin]
      rw [show i - p = (i - (p + 1)) + 1 by omega]
      simp
    · rw [if_neg (by omega), if_neg hin, if_neg hip]

theorem rx_feed_loop_spec {ρ : Type} (bs : List Nat) (st : CommState ρ)
    (h : st.rx_buf_head + bs.length ≤ RX_BUFFER_SIZE) :
    rx_feed_loop bs st =
      ({ st with
         RX_BUFFER := writeBytes st.RX_BUFFER st.rx_buf_head bs,
         rx_buf_head := st.rx_buf_head + bs.length }, []) := by
  induction bs generalizing st with
  | nil =>
    simp [rx_feed_loop, writeBytes_nil]
  | cons b rest ih =>
    have hlt : st.rx_buf_head < RX_BUFFER_SIZE := by
      simp only [List.length_cons] at h; omega
    simp only [rx_feed_loop, if_pos hlt]
    rw [ih _ (by simp only [List.length_cons] at h ⊢; omega)]
    rw [writeBytes_cons]
    have harith : st.rx_buf_head + (b :: rest).length = st.rx_buf_head + 1 + rest.length := by
      simp only [List.length_cons]; omega
    rw [harith]

theorem rx_read_spec {ρ : Type} (bs : List Nat) (st : CommState ρ)
    (h : st.rx_buf_head + bs.length ≤ RX_BUFFER_SIZE) (h63 : bs.length ≠ 63) :
    rx_read_from_serial_to_local_buffer bs st =
      ({ st with
         RX_BUFFER := writeBytes st.RX_BUFFER st.rx_buf_head bs,
         rx_buf_head := st.rx_buf_head + bs.length }, []) := by
  rw [rx_read_from_serial_to_local_buffer, if_neg h63]
  exact rx_feed_loop_spec bs st h

theorem drainAll_pending_zero {ρ : Type} (sched : List Nat) (st : CommState ρ)
    (h : st.tx_buf_head ≤ st.tx_buf_tail) :
    drainAll sched st = ([], st) := by
  induction sched with
  | nil => rfl
  | cons a rest ih =>
    simp only [drainAll, async_transmit]
    rw [if_neg (by omega)]
    simp [ih]

theorem drainAll_emits {ρ : Type} (sched : List Nat) (st : CommState ρ)
    (hts : st.tx_buf_tail ≤ st.tx_buf_head) :
    ∃ st' : CommState ρ,
      drainAll sched st
        = (bufBytes st.TX_BUFFER st.tx_buf_tail
            ((st.tx_buf_head - st.tx_buf_tail) - (st'.tx_buf_head - st'.tx_buf_tail)), st')
      ∧ st'.TX_BUFFER = st.TX_BUFFER
      ∧ st'.tx_buf_tail ≤ st'.tx_buf_head
      ∧ st'.tx_buf_head - st'.tx_buf_tail ≤ st.tx_buf_head - st.tx_buf_tail := by
  induction sched generalizing st with
  | nil =>
    refine ⟨st, ?_, rfl, hts, Nat.le_refl _⟩
    simp [drainAll, bufBytes]
  | cons a rest ih =>
    by_cases hgt : st.tx_buf_head > st.tx_buf_tail
    · by_cases ha : a > 0
      · by_cases hdone : st.tx_buf_tail + min (st.tx_buf_head - st.tx_buf_tail) a = st.tx_buf_head
        · have hstep : async_transmit a st
              = (bufBytes st.TX_BUFFER st.tx_buf_tail (min (st.tx_buf_head - st.tx_buf_tail) a),
                 { st with tx_buf_tail := 0, tx_buf_head := 0 }) := by
            simp only [async_transmit, if_pos hgt, if_pos ha, if_pos hdone]
          have hrest : drainAll rest ({ st with tx_buf_tail := 0, tx_buf_head := 0 } : CommState ρ)
              = ([], { st with tx_buf_tail := 0, tx_buf_head := 0 }) :=
            drainAll_pending_zero rest _ (Nat.le_refl 0)
          refine ⟨{ st with tx_buf_tail := 0, tx_buf_head := 0 }, ?_, rfl, Nat.le_refl _, ?_⟩
          · simp only [drainAll, hstep, hrest, List.append_nil]
            have : min (st.tx_buf_head - st.tx_buf_tail) a
                = (st.tx_buf_head - st.tx_buf_tail)
                  - (({ st with tx_buf_tail := 0, tx_buf_head := 0 } : CommState ρ).tx_buf_head
                     - ({ st with tx_buf_tail := 0, tx_buf_head := 0 } : CommState ρ).tx_buf_tail) := by
              show min (st.tx_buf_head - st.tx_buf_tail) a
                = (st.tx_buf_head - st.tx_buf_tail) - (0 - 0)
              omega
            rw [← this]
          · show 0 - 0 ≤ st.tx_buf_head - st.tx_buf_tail
            omega
        · have hstep : async_transmit a st
              = (bufBytes st.TX_BUFFER st.tx_buf_tail (min (st.tx_buf_head - st.tx_buf_tail) a),
                 { st with tx_buf_tail := st.tx_buf_tail + min (st.tx_buf_head - st.tx_buf_tail) a }) := by
            simp only [async_transmit, if_pos hgt, if_pos ha, if_neg hdone]
          obtain ⟨st2, hEq, h1, h2, h3⟩ :=
            ih { st with tx_buf_tail := st.tx_buf_tail + min (st.tx_buf_head - st.tx_buf_tail) a }
              (by show st.tx_buf_tail + min (st.tx_buf_head - st.tx_buf_tail) a ≤ st.tx_buf_head; omega)
          have h3' : st2.tx_buf_head - st2.tx_buf_tail
              ≤ st.tx_buf_head - (st.tx_buf_tail + min (st.tx_buf_head - st.tx_buf_tail) a) := h3
          refine ⟨st2, ?_, h1, h2, by omega⟩
          simp only [drainAll, hstep, hEq]
          have harr : bufBytes st.TX_BUFFER st.tx_buf_tail (min (st.tx_buf_head - st.tx_buf_tail) a)
                ++ bufBytes st.TX_BUFFER (st.tx_buf_tail + min (st.tx_buf_head - st.tx_buf_tail) a)
                     ((st.tx_buf_head - (st.tx_buf_tail + min (st.tx_buf_head - st.tx_buf_tail) a))
                       - (st2.tx_buf_head - st2.tx_buf_tail))
              = bufBytes st.TX_BUFFER st.tx_buf_tail
                  ((st.tx_buf_head - st.tx_buf_tail) - (st2.tx_buf_head - st2.tx_buf_tail)) := by
            rw [← bufBytes_append]
            congr 1
            omega
          rw [← harr]
      · have ha0 : a = 0 := by omega
        subst ha0
        have hstep : async_transmit 0 st = ([], st) := by
          simp only [async_transmit, if_pos hgt]
          norm_num
        obtain ⟨st2, hEq, h1, h2, h3⟩ := ih st hts
        refine ⟨st2, ?_, h1, h2, h3⟩
        simp only [drainAll, hstep, hEq, List.nil_append]
    · have hstep : async_transmit a st = ([], st) := by
        simp only [async_transmit, if_neg hgt]
      obtain ⟨st2, hEq, h1, h2, h3⟩ := ih st hts
      refine ⟨st2, ?_, h1, h2, h3⟩
      simp only [drainAll, hstep, hEq, List.nil_append]

theorem build_packet_ok (doc : JsonDoc) (dest dest_size : Nat) (buf : Nat → Nat)
    (h : 3 + doc.bytes.length ≤ dest_size) :
    (build_packet doc dest dest_size buf).1 = 3 + doc.bytes.length ∧
    bufBytes (build_packet doc dest dest_size buf).2 dest (3 + doc.bytes.length)
      = PACKET_START_TOKEN :: (doc.bytes.length / 256) :: (doc.bytes.length % 256)
          :: doc.bytes := by
  simp only [build_packet, if_neg (by omega : ¬ dest_size < 3 + doc.bytes.length)]
  refine ⟨by simp, ?_⟩
  rw [show 3 + doc.bytes.length = doc.bytes.length + 1 + 1 + 1 by omega]
  rw [bufBytes_succ, bufBytes_succ, bufBytes_succ]
  rw [if_pos rfl]
  rw [if_neg (by omega), if_pos rfl]
  rw [if_neg (by omega), if_neg (by omega), if_pos rfl]
  congr 1
  congr 1
  congr 1
  have : ∀ i, i < doc.bytes.length →
      (fun i => if i = dest then PACKET_START_TOKEN
        else if i = dest + 1 then doc.bytes.length / 256
        else if i = dest + 2 then doc.bytes.length % 256
        else writeBytes buf (dest + 3) doc.bytes i) (dest + 1 + 1 + 1 + i)
      = doc.bytes.getD i 0 := by
    intro i hi
    simp only
    rw [if_neg (by omega), if_neg (by omega), if_neg (by omega)]
    rw [show dest + 1 + 1 + 1 + i = dest + 3 + i by omega]
    exact writeBytes_getD buf (dest + 3) doc.bytes i hi
  exact bufBytes_eq_of_getD _ _ _ this

theorem enqueue_success {ρ : Type} (doc : JsonDoc) (st : CommState ρ)
    (hov : doc.overflowed = false)
    (hfit : st.tx_buf_head + (3 + doc.bytes.length) ≤ TX_BUFFER_SIZE) :
    enqueue_for_transmit doc st
      = (.TX_SUCCESS,
         { st with
           TX_BUFFER := (build_packet doc st.tx_buf_head
             (TX_BUFFER_SIZE - st.tx_buf_head) st.TX_BUFFER).2,
           tx_buf_head := st.tx_buf_head + (3 + doc.bytes.length) }) := by
  obtain ⟨h1, _⟩ := build_packet_ok doc st.tx_buf_head (TX_BUFFER_SIZE - st.tx_buf_head)
    st.TX_BUFFER (by omega)
  simp only [enqueue_for_transmit, hov, Bool.false_eq_true, if_false, h1]
  rw [if_pos (by omega)]

theorem receive_step_token0 {ρ : Type} (codec : Codec ρ) (st : CommState ρ)
    (h1 : st.rx_buf_tail + 1 = st.rx_buf_head)
    (hb : st.RX_BUFFER st.rx_buf_tail = PACKET_START_TOKEN)
    (hst : st.rx_state = 0) :
    receive_packet codec st
      = some (.RX_IN_PROGRESS,
          { st with led := true, rx_buf_tail := st.rx_buf_tail + 1, rx_state := 1 }) := by
  obtain ⟨buf, tail, head, state, mst, mlen, data, txb, txt, txh, msgb, led, dg, rs⟩ := st
  simp only at h1 hb hst
  subst hst
  subst h1
  have h2 : ¬ (tail = tail + 1) := by omega
  have hc : tail < tail + 1 := by omega
  have hnc : ¬ (tail + 1 < tail + 1) := by omega
  simp [receive_packet, rx_loop, hb, h2, hc, hnc]

theorem receive_step_len1 {ρ : Type} (codec : Codec ρ) (st : CommState ρ)
    (h1 : st.rx_buf_tail + 1 = st.rx_buf_head)
    (hb : st.RX_BUFFER st.rx_buf_tail ≠ PACKET_START_TOKEN)
    (hst : st.rx_state = 1) :
    receive_packet codec st
      = some (.RX_IN_PROGRESS,
          { st with
            rx_message_length := st.RX_BUFFER st.rx_buf_tail <<< 8,
            rx_buf_tail := st.rx_buf_tail + 1,
            rx_state := 2 }) := by
  obtain ⟨buf, tail, head, state, mst, mlen, data, txb, txt, txh, msgb, led, dg, rs⟩ := st
  simp only at h1 hb hst ⊢
  subst hst
  subst h1
  have h2 : ¬ (tail = tail + 1) := by omega
  have hc : tail < tail + 1 := by omega
  have hnc : ¬ (tail + 1 < tail + 1) := by omega
  simp [receive_packet, rx_loop, hb, h2, hc, hnc]

theorem receive_step_len2_ok {ρ : Type} (codec : Codec ρ) (st : CommState ρ)
    (h1 : st.rx_buf_tail + 1 = st.rx_buf_head)
    (hb : st.RX_BUFFER st.rx_buf_tail ≠ PACKET_START_TOKEN)
    (hst : st.rx_state = 2)
    (hlen : ¬ (st.rx_message_length ||| st.RX_BUFFER st.rx_buf_tail > RX_BUFFER_SIZE)) :
    receive_packet codec st
      = some (.RX_IN_PROGRESS,
          { st with
            rx_message_length := st.rx_message_length ||| st.RX_BUFFER st.rx_buf_tail,
            rx_buf_tail := st.rx_buf_tail + 1,
            rx_message_start := st.rx_buf_tail + 1,
            rx_state := 3 }) := by
  obtain ⟨buf, tail, head, state, mst, mlen, data, txb, txt, txh, msgb, led, dg, rs⟩ := st
  simp only at h1 hb hst hlen ⊢
  subst hst
  subst h1
  have h2 : ¬ (tail = tail + 1) := by omega
  have hc : tail < tail + 1 := by omega
  have hnc : ¬ (tail + 1 < tail + 1) := by omega
  simp [receive_packet, rx_loop, hb, h2, hc, hnc, hlen]

theorem receive_step_body_wait {ρ : Type} (codec : Codec ρ) (st : CommState ρ)
    (h1 : st.rx_buf_tail < st.rx_buf_head)
    (hb : st.RX_BUFFER st.rx_buf_tail ≠ PACKET_START_TOKEN)
    (hst : st.rx_state = 3)
    (hwait : st.rx_buf_head < st.rx_message_length + st.rx_message_start)
    (hmlen : st.rx_message_length < 65536)
    (hmst : st.rx_message_start < 4294967296)
    (hhead : st.rx_buf_head < 4294967296) :
    receive_packet codec st
      = some (.RX_IN_PROGRESS,
          { st with
            rx_buf_tail := min (st.rx_message_length + st.rx_message_start) st.rx_buf_head }) := by
  obtain ⟨buf, tail, head, state, mst, mlen, data, txb, txt, txh, msgb, led, dg, rs⟩ := st
  simp only at h1 hb hst hwait hmlen hmst hhead ⊢
  subst hst
  have h2 : ¬ (tail = head) := by omega
  have hw : 0 < usub mlen (usub (min (mlen + mst) head) mst) :=
    (body_wait_iff mlen mst head hmlen hmst hhead).2 hwait
  simp [receive_packet, rx_loop, hb, h2, h1, hw]

theorem receive_step_body_complete_ok {ρ : Type} (codec : Codec ρ) (st : CommState ρ)
    (r : ρ)
    (h1 : st.rx_buf_tail < st.rx_buf_head)
    (hb : st.RX_BUFFER st.rx_buf_tail ≠ PACKET_START_TOKEN)
    (hst : st.rx_state = 3)
    (hfull : st.rx_message_length + st.rx_message_start = st.rx_buf_head)
    (hmlen : st.rx_message_length < 65536)
    (hmst : st.rx_message_start < 4294967296)
    (hhead : st.rx_buf_head < 4294967296)
    (hdec : codec.decode (bufBytes st.RX_BUFFER st.rx_message_start st.rx_message_length)
      = some r) :
    receive_packet codec st
      = some (.PACKET_RECEIVED,
          { st with
            rx_buf_tail := 0,
            rx_buf_head := 0,
            rx_state := 0,
            rx_data := r,
            led := false,
            rx_resets := st.rx_resets ++ [⟨2, st.rx_buf_head, st.rx_buf_head⟩] }) := by
  obtain ⟨buf, tail, head, state, mst, mlen, data, txb, txt, txh, msgb, led, dg, rs⟩ := st
  simp only at h1 hb hst hfull hmlen hmst hhead hdec ⊢
  subst hst
  have h2 : ¬ (tail = head) := by omega
  have hmin : min (mlen + mst) head = head := by omega
  have hiff := body_wait_iff mlen mst head hmlen hmst hhead
  rw [hmin] at hiff
  have hz : usub mlen (usub head mst) = 0 := by
    have hnp : ¬ (0 < usub mlen (usub head mst)) := by rw [hiff]; omega
    omega
  simp [receive_packet, rx_loop, hb, h2, h1, hmin, hz, hdec]

theorem receive_step_body_complete_undrained_ok {ρ : Type} (codec : Codec ρ)
    (st : CommState ρ) (r : ρ)
    (h1 : st.rx_buf_tail < st.rx_buf_head)
    (hb : st.RX_BUFFER st.rx_buf_tail ≠ PACKET_START_TOKEN)
    (hst : st.rx_state = 3)
    (hfull : st.rx_message_length + st.rx_message_start < st.rx_buf_head)
    (hmlen : st.rx_message_length < 65536)
    (hmst : st.rx_message_start < 4294967296)
    (hhead : st.rx_buf_head < 4294967296)
    (hdec : codec.decode (bufBytes st.RX_BUFFER st.rx_message_start st.rx_message_length)
      = some r) :
    receive_packet codec st
      = some (.PACKET_RECEIVED,
          { st with
            rx_buf_tail := st.rx_message_length + st.rx_message_start,
            rx_state := 0,
            rx_data := r,
            led := false }) := by
  obtain ⟨buf, tail, head, state, mst, mlen, data, txb, txt, txh, msgb, led, dg, rs⟩ := st
  simp only at h1 hb hst hfull hmlen hmst hhead hdec ⊢
  subst hst
  have h2 : ¬ (tail = head) := by omega
  have hmin : min (mlen + mst) head = mlen + mst := by omega
  have hne : ¬ (mlen + mst = head) := by omega
  have hiff := body_wait_iff mlen mst head hmlen hmst hhead
  rw [hmin] at hiff
  have hz : usub mlen (usub (mlen + mst) mst) = 0 := by
    have hnp : ¬ (0 < usub mlen (usub (mlen + mst) mst)) := by rw [hiff]; omega
    omega
  simp [receive_packet, rx_loop, hb, h2, h1, hmin, hz, hdec, hne]

theorem usub_cancel (len s : Nat) :
    usub len (usub (s + len) s) = 0 := by
  have h64 : (2 : Nat) ^ 64 = 18446744073709551616 := by norm_num
  simp only [usub, h64]
  omega

theorem receive_complete_frame {ρ : Type} (codec : Codec ρ) (st : CommState ρ)
    (t : Nat) (payload : List Nat) (r : ρ)
    (hst : st.rx_state = 0)
    (htail : st.rx_buf_tail = t)
    (hhead : st.rx_buf_head = t + 3 + payload.length)
    (hb0 : st.RX_BUFFER t = PACKET_START_TOKEN)
    (hb1 : st.RX_BUFFER (t + 1) ≠ PACKET_START_TOKEN)
    (hb2 : st.RX_BUFFER (t + 2) ≠ PACKET_START_TOKEN)
    (hb3 : st.RX_BUFFER (t + 3) ≠ PACKET_START_TOKEN)
    (hlen : (st.RX_BUFFER (t + 1) <<< 8) ||| st.RX_BUFFER (t + 2) = payload.length)
    (hp : bufBytes st.RX_BUFFER (t + 3) payload.length = payload)
    (hlen1 : 1 ≤ payload.length)
    (hlen2 : payload.length ≤ RX_BUFFER_SIZE)
    (ht : t ≤ RX_BUFFER_SIZE)
    (hdec : codec.decode payload = some r) :
    ((receive_packet codec st).map (fun p => (p.1, p.2.rx_data)))
      = some (.PACKET_RECEIVED, r) := by
  obtain ⟨buf, tail, head, state, mst, mlen, data, txb, txt, txh, msgb, led, dg, rs⟩ := st
  simp only at hst htail hhead hb0 hb1 hb2 hb3 hlen hp hdec
  subst hst
  subst htail
  subst hhead
  rw [RX_BUFFER_SIZE] at hlen2 ht
  have hne : ¬ (tail = tail + 3 + payload.length) := by omega
  have hfuel : tail + 3 + payload.length - tail + 1 = payload.length + 1 + 1 + 1 + 1 := by omega
  have hfuel2 : tail + 3 + payload.length - tail = payload.length + 1 + 1 + 1 := by omega
  have hlt0 : tail < tail + 3 + payload.length := by omega
  have hlt1 : tail + 1 < tail + 3 + payload.length := by omega
  have hlt2 : tail + 2 < tail + 3 + payload.length := by omega
  have hlt3 : tail + 3 < tail + 3 + payload.length := by omega
  have hnov : ¬ (payload.length > RX_BUFFER_SIZE) := by rw [RX_BUFFER_SIZE]; omega
  have hmin : min (payload.length + (tail + 3)) (tail + 3 + payload.length)
      = tail + 3 + payload.length := by omega
  have hz : usub payload.length (usub (tail + 3 + payload.length) (tail + 3)) = 0 :=
    usub_cancel payload.length (tail + 3)
  simp [receive_packet, rx_loop, hne, hfuel, hfuel2, hb0, hb1, hb2, hb3, hlen, hp, hdec,
    hlt0, hlt1, hlt2, hlt3, hnov, hmin, hz]

/-! ## Claim theorems -/

/-- C8 (confirmed): appending a string strictly longer than the
128-byte message buffer to the empty diagnostic buffer stores a message that,
with its NUL terminator, fills the buffer exactly (127 stored characters) and
ends in the truncation marker `" ..."`, and `message_append` returns `false`;
a string that fits (together with its terminator) is stored in full and
`message_append` returns `true`. -/
theorem C8_message_truncation (s : List Nat) :
    (TX_STATUS_MSG_BUFFER_SIZE < s.length →
      (message_append [] s).1 = false ∧
      (message_append [] s).2.length + 1 = TX_STATUS_MSG_BUFFER_SIZE ∧
      TX_STATUS_MSG_TRUNC_IND <:+ (message_append [] s).2) ∧
    (s.length + 1 ≤ TX_STATUS_MSG_BUFFER_SIZE →
      (message_append [] s).1 = true ∧ (message_append [] s).2 = s) := by
  constructor
  · intro h
    rw [TX_STATUS_MSG_BUFFER_SIZE] at h
    have hcond : ¬ (s.length < TX_STATUS_MSG_BUFFER_SIZE - ([] : List Nat).length) := by
      rw [TX_STATUS_MSG_BUFFER_SIZE]
      simp
      omega
    have hlt : (([] : List Nat)
        ++ s.take (TX_STATUS_MSG_BUFFER_SIZE - ([] : List Nat).length - 1)).length = 127 := by
      rw [TX_STATUS_MSG_BUFFER_SIZE]
      simp
      omega
    refine ⟨?_, ?_, ?_⟩
    · simp only [message_append, if_neg hcond]
    · simp only [message_append, if_neg hcond]
      rw [apply_trunc_ind, if_neg (by rw [hlt]; decide)]
      simp [TX_STATUS_MSG_TRUNC_IND, TX_STATUS_MSG_BUFFER_SIZE, TX_STATUS_MSG_TRUNC_IND_SIZE]
      omega
    · simp only [message_append, if_neg hcond]
      rw [apply_trunc_ind, if_neg (by rw [hlt]; decide)]
      exact List.suffix_append _ _
  · intro h
    rw [TX_STATUS_MSG_BUFFER_SIZE] at h
    have hcond : s.length < TX_STATUS_MSG_BUFFER_SIZE - ([] : List Nat).length := by
      rw [TX_STATUS_MSG_BUFFER_SIZE]
      simp
      omega
    refine ⟨?_, ?_⟩
    · simp only [message_append, if_pos hcond]
    · simp only [message_append, if_pos hcond, List.nil_append]
      apply List.take_of_length_le
      rw [TX_STATUS_MSG_BUFFER_SIZE]
      simp
      omega

set_option maxRecDepth 100000 in
/-- Closed witness for C8: a 200-character string is truncated with the
marker, a 2-character string is stored in full. -/
theorem C8_message_truncation_witness :
    (message_append [] (List.replicate 200 97)).1 = false ∧
    TX_STATUS_MSG_TRUNC_IND <:+ (message_append [] (List.replicate 200 97)).2 ∧
    (message_append [] [97, 98]).1 = true ∧
    (message_append [] [97, 98]).2 = [97, 98] := by
  have h1 := (C8_message_truncation (List.replicate 200 97)).1
    (by rw [TX_STATUS_MSG_BUFFER_SIZE]; simp)
  have h2 := (C8_message_truncation [97, 98]).2 (by decide)
  exact ⟨h1.1, h1.2.2, h2.1, h2.2⟩

/-- C9 (confirmed): `message_enqueue_for_transmit` always leaves the pending
diagnostic message buffer empty — `message_clear` runs unconditionally after
the transmit enqueue — and when the underlying enqueue fails (document
overflow, or no room in the transmit buffer) nothing was enqueued
(`tx_buf_head` and the transmit buffer are unchanged), so the diagnostic text
is lost rather than retained for a retry.  `wrap` stands for the external
serialization of the `{"msg": ...}` status document. -/
theorem C9_message_buffer_cleared {ρ : Type} (wrap : List Nat → JsonDoc)
    (msg : List Nat) (st : CommState ρ) :
    (message_enqueue_for_transmit wrap msg st).2.TX_STATUS_MSG_BUFFER = [] ∧
    ((message_enqueue_for_transmit wrap msg st).1 ≠ TransmitCode.TX_SUCCESS →
      (message_enqueue_for_transmit wrap msg st).2.tx_buf_head = st.tx_buf_head ∧
      (message_enqueue_for_transmit wrap msg st).2.TX_BUFFER = st.TX_BUFFER) := by
  simp only [message_enqueue_for_transmit, message_clear, enqueue_for_transmit]
  by_cases hov : (wrap (message_append st.TX_STATUS_MSG_BUFFER msg).2).overflowed
  · simp [hov]
  · simp only [hov, Bool.false_eq_true, if_false]
    split
    · simp
    · split
      · simp
      · simp

/-- Closed witness for C9: an overflowed status document fails the enqueue,
the message buffer is empty afterwards and the transmit head is unchanged. -/
theorem C9_message_buffer_cleared_witness :
    (message_enqueue_for_transmit (fun l => ⟨l, true⟩) [97]
      (initComm ([] : List Nat))).2.TX_STATUS_MSG_BUFFER = [] ∧
    (message_enqueue_for_transmit (fun l => ⟨l, true⟩) [97]
      (initComm ([] : List Nat))).2.tx_buf_head
      = (initComm ([] : List Nat)).tx_buf_head := by
  have h := C9_message_buffer_cleared (fun l => ⟨l, true⟩) [97] (initComm ([] : List Nat))
  exact ⟨h.1, (h.2 (by decide)).1⟩

/-- C5 (corrected): when `enqueue_for_transmit` fails for lack of contiguous
free space, comm.cpp checks the permanent condition first: if the framed
packet (3-byte header plus encoded payload) can never fit even an empty
transmit buffer it returns `TX_BUFFER_TOO_SMALL_TO_FIT_DATA` — even when
unsent data remains (`tx_buf_tail < tx_buf_head`), contrary to the claim's
first clause — and only otherwise returns the transient
`TRANSMIT_RATE_TOO_LOW`; in every failure case the state (in particular
`tx_buf_head` and the transmit buffer) is unchanged, so no partial packet is
left enqueued. -/
theorem C5_transmit_failure {ρ : Type} (tx_doc : JsonDoc) (st : CommState ρ)
    (hov : tx_doc.overflowed = false)
    (hfail : TX_BUFFER_SIZE - st.tx_buf_head < 3 + tx_doc.bytes.length) :
    (enqueue_for_transmit tx_doc st).1
      = (if 3 + tx_doc.bytes.length > TX_BUFFER_SIZE
         then TransmitCode.TX_BUFFER_TOO_SMALL_TO_FIT_DATA
         else TransmitCode.TRANSMIT_RATE_TOO_LOW) ∧
    (enqueue_for_transmit tx_doc st).2 = st := by
  have hbz : (build_packet tx_doc st.tx_buf_head
      (TX_BUFFER_SIZE - st.tx_buf_head) st.TX_BUFFER).1 = 0 := by
    simp only [build_packet, if_pos hfail]
  simp only [enqueue_for_transmit, hov, Bool.false_eq_true, if_false, hbz]
  by_cases hbig : 3 + tx_doc.bytes.length > TX_BUFFER_SIZE
  · simp [hbig]
  · simp [hbig]

set_option maxRecDepth 100000 in
/-- Closed witness for C5: a packet of 1501 framed bytes can never fit the
1500-byte transmit buffer, and while a previous packet is still unsent the
permanent code is returned and the head offset is unchanged. -/
theorem C5_transmit_failure_witness :
    (enqueue_for_transmit ⟨List.replicate 1498 97, false⟩
      ((enqueue_for_transmit ⟨[123, 97], false⟩ (initComm ([] : List Nat))).2)).1
      = (if 3 + (List.replicate 1498 97 : List Nat).length > TX_BUFFER_SIZE
         then TransmitCode.TX_BUFFER_TOO_SMALL_TO_FIT_DATA
         else TransmitCode.TRANSMIT_RATE_TOO_LOW) ∧
    (enqueue_for_transmit ⟨List.replicate 1498 97, false⟩
      ((enqueue_for_transmit ⟨[123, 97], false⟩ (initComm ([] : List Nat))).2)).2
      = (enqueue_for_transmit ⟨[123, 97], false⟩ (initComm ([] : List Nat))).2 :=
  C5_transmit_failure ⟨List.replicate 1498 97, false⟩
    ((enqueue_for_transmit ⟨[123, 97], false⟩ (initComm ([] : List Nat))).2)
    rfl (by decide)

set_option maxRecDepth 100000 in
/-- Counterexample to C5 as stated: after a successful 5-byte enqueue the
transmit buffer has unsent data (`tx_buf_tail < tx_buf_head`), yet enqueuing
a record whose framed packet (1501 bytes) can never fit returns the
permanent `TX_BUFFER_TOO_SMALL_TO_FIT_DATA`, not the transient
insufficient-transmit-rate code that the claim requires whenever unsent data
remains. -/
theorem C5_transmit_failure_counterexample :
    ((enqueue_for_transmit ⟨[123, 97], false⟩ (initComm ([] : List Nat))).2).tx_buf_tail
      < ((enqueue_for_transmit ⟨[123, 97], false⟩ (initComm ([] : List Nat))).2).tx_buf_head ∧
    (enqueue_for_transmit ⟨List.replicate 1498 97, false⟩
      ((enqueue_for_transmit ⟨[123, 97], false⟩ (initComm ([] : List Nat))).2)).1
      = TransmitCode.TX_BUFFER_TOO_SMALL_TO_FIT_DATA ∧
    (enqueue_for_transmit ⟨List.replicate 1498 97, false⟩
      ((enqueue_for_transmit ⟨[123, 97], false⟩ (initComm ([] : List Nat))).2)).1
      ≠ TransmitCode.TRANSMIT_RATE_TOO_LOW := by
  refine ⟨by decide, by decide, by decide⟩

/-- A buffered header whose declared length passes the oversize check takes
the receiver into the Body state: from `AwaitStart`, consuming `$`, the high
and the low length byte (neither of which may itself be the start token)
leaves the machine in state 3 with `rx_message_start` right after the
header.  Used for C10. -/
theorem receive_header_enters_body {ρ : Type} (codec : Codec ρ) (st : CommState ρ)
    (t : Nat)
    (hst : st.rx_state = 0)
    (htail : st.rx_buf_tail = t)
    (hhead : st.rx_buf_head = t + 3)
    (hb0 : st.RX_BUFFER t = PACKET_START_TOKEN)
    (hb1 : st.RX_BUFFER (t + 1) ≠ PACKET_START_TOKEN)
    (hb2 : st.RX_BUFFER (t + 2) ≠ PACKET_START_TOKEN)
    (hok : ¬ ((st.RX_BUFFER (t + 1) <<< 8) ||| st.RX_BUFFER (t + 2) > RX_BUFFER_SIZE)) :
    receive_packet codec st
      = some (.RX_IN_PROGRESS,
          { st with
            led := true,
            rx_message_length := (st.RX_BUFFER (t + 1) <<< 8) ||| st.RX_BUFFER (t + 2),
            rx_message_start := t + 3,
            rx_buf_tail := t + 3,
            rx_state := 3 }) := by
  obtain ⟨buf, tail, head, state, mst, mlen, data, txb, txt, txh, msgb, led, dg, rs⟩ := st
  simp only at hst htail hhead hb0 hb1 hb2 hok ⊢
  subst hst
  subst htail
  subst hhead
  have hne : ¬ (tail = tail + 3) := by omega
  have hfuel : tail + 3 - tail + 1 = 1 + 1 + 1 + 1 := by omega
  have hfuel2 : tail + 3 - tail = 1 + 1 + 1 := by omega
  have hlt0 : tail < tail + 3 := by omega
  have hlt1 : tail + 1 < tail + 3 := by omega
  have hlt2 : tail + 2 < tail + 3 := by omega
  have hnlt : ¬ (tail + 3 < tail + 3) := by omega
  simp [receive_packet, rx_loop, hne, hfuel, hfuel2, hb0, hb1, hb2, hok,
    hlt0, hlt1, hlt2, hnlt]

/-- C4 (corrected): a buffered frame whose declared 16-bit length exceeds
the receive-buffer capacity is rejected on consuming the second length byte
— `receive_packet` returns `MESSAGE_EXCEEDS_RX_BUFFER_SIZE` with the framing
state back at `AwaitStart` and both offsets reset to 0 — provided neither
length byte is itself the start-token value `$` (a length byte equal to `$`
is instead consumed as a fresh start token and the oversize return never
happens; see the counterexample). -/
theorem C4_oversized_length_rejection {ρ : Type} (codec : Codec ρ)
    (st : CommState ρ) (t : Nat)
    (hst : st.rx_state = 0)
    (htail : st.rx_buf_tail = t)
    (hhead : t + 3 ≤ st.rx_buf_head)
    (hb0 : st.RX_BUFFER t = PACKET_START_TOKEN)
    (hb1 : st.RX_BUFFER (t + 1) ≠ PACKET_START_TOKEN)
    (hb2 : st.RX_BUFFER (t + 2) ≠ PACKET_START_TOKEN)
    (hover : (st.RX_BUFFER (t + 1) <<< 8) ||| st.RX_BUFFER (t + 2) > RX_BUFFER_SIZE) :
    receive_packet codec st
      = some (.MESSAGE_EXCEEDS_RX_BUFFER_SIZE,
          { st with
            led := true,
            rx_message_length := (st.RX_BUFFER (t + 1) <<< 8) ||| st.RX_BUFFER (t + 2),
            rx_state := 0,
            rx_buf_tail := 0,
            rx_buf_head := 0,
            rx_resets := st.rx_resets ++ [⟨1, t + 2, st.rx_buf_head⟩] }) := by
  obtain ⟨buf, tail, head, state, mst, mlen, data, txb, txt, txh, msgb, led, dg, rs⟩ := st
  simp only at hst htail hhead hb0 hb1 hb2 hover ⊢
  subst hst
  subst htail
  have hne : ¬ (tail = head) := by omega
  obtain ⟨d, hd⟩ : ∃ d, head - tail = d + 2 := ⟨head - tail - 2, by omega⟩
  have hlt0 : tail < head := by omega
  have hlt1 : tail + 1 < head := by omega
  have hlt2 : tail + 2 < head := by omega
  simp [receive_packet, rx_loop, hne, hd, hb0, hb1, hb2, hover,
    hlt0, hlt1, hlt2]

/-- Closed witness for C4: the frame `$ FF FF x` declares length 65535,
which exceeds the capacity 1500; the poll that consumes the low length byte
returns `MESSAGE_EXCEEDS_RX_BUFFER_SIZE`, state `AwaitStart` and both
offsets 0. -/
theorem C4_oversized_length_rejection_witness :
    ((receive_packet jsonish
      ((rx_read_from_serial_to_local_buffer [36, 255, 255, 120]
        (initComm ([] : List Nat))).1)).map
      (fun p => (p.1, p.2.rx_state, p.2.rx_buf_tail, p.2.rx_buf_head)))
    = some (.MESSAGE_EXCEEDS_RX_BUFFER_SIZE, 0, 0, 0) := by
  rw [C4_oversized_length_rejection jsonish
    ((rx_read_from_serial_to_local_buffer [36, 255, 255, 120]
      (initComm ([] : List Nat))).1) 0
    (by decide) (by decide) (by decide) (by decide) (by decide) (by decide) (by decide)]
  rfl

/-- Counterexample to C4 as stated: the frame header `$ 08 24` declares the
16-bit length 2084 (`0x0824`), which exceeds the receive-buffer capacity
1500, yet the call that consumes the second length byte returns
`RX_IN_PROGRESS`, not `MESSAGE_EXCEEDS_RX_BUFFER_SIZE`: the low length byte
0x24 is the start-token value `$`, so the receiver treats it as a fresh
start token and never runs the oversize check. -/
theorem C4_oversized_length_rejection_counterexample :
    (8 <<< 8) ||| 36 > RX_BUFFER_SIZE ∧
    ((receive_packet jsonish
      ((rx_read_from_serial_to_local_buffer [36, 8, 36]
        (initComm ([] : List Nat))).1)).map Prod.fst)
      = some .RX_IN_PROGRESS := by
  refine ⟨by decide, by decide⟩

/-- C2 (corrected): in the Body state only the byte at the current read
position of a `receive_packet` loop iteration is compared against the start
token.  (a) If that byte is `$`, the in-progress frame IS abandoned — the
machine queues `PREVIOUS_PACKET_INCOMPLETE` and restarts at `LengthHigh` —
contrary to the claim.  (b) If that byte is not `$`, the frame is completed
purely by position: `rx_buf_tail` jumps over the remaining payload without
comparing any skipped byte against the token, so the decoded result is
delivered no matter how many `$` bytes the skipped payload contains. -/
theorem C2_payload_token_scanning :
    (∀ (ρ : Type) (codec : Codec ρ) (st : CommState ρ) (fuel : Nat),
      st.rx_state = 3 →
      st.rx_buf_tail < st.rx_buf_head →
      st.RX_BUFFER st.rx_buf_tail = PACKET_START_TOKEN →
      st.TX_STATUS_MSG_BUFFER = [] →
      rx_loop codec (fuel + 1) st
        = rx_loop codec fuel
            { st with
              led := true,
              TX_STATUS_MSG_BUFFER := [],
              diags_sent := st.diags_sent ++ [MSG_PREVIOUS_PACKET_INCOMPLETE],
              rx_buf_tail := st.rx_buf_tail + 1,
              rx_state := 1 }) ∧
    (∀ (ρ : Type) (codec : Codec ρ) (st : CommState ρ) (r : ρ),
      st.rx_state = 3 →
      st.rx_buf_tail < st.rx_buf_head →
      st.RX_BUFFER st.rx_buf_tail ≠ PACKET_START_TOKEN →
      st.rx_message_length + st.rx_message_start ≤ st.rx_buf_head →
      st.rx_message_length < 65536 →
      st.rx_message_start < 4294967296 →
      st.rx_buf_head < 4294967296 →
      codec.decode (bufBytes st.RX_BUFFER st.rx_message_start st.rx_message_length)
        = some r →
      ((receive_packet codec st).map (fun p => (p.1, p.2.rx_data)))
        = some (.PACKET_RECEIVED, r)) := by
  constructor
  · intro ρ codec st fuel hst h1 hb hmb
    obtain ⟨buf, tail, head, state, mst, mlen, data, txb, txt, txh, msgb, led, dg, rs⟩ := st
    simp only at hst h1 hb hmb ⊢
    subst hst
    subst hmb
    have hm : (message_append [] MSG_PREVIOUS_PACKET_INCOMPLETE).2
        = MSG_PREVIOUS_PACKET_INCOMPLETE := by decide
    simp [rx_loop, h1, hb, submit_diag, hm]
  · intro ρ codec st r hst h1 hb hfull hmlen hmst hhead hdec
    rcases Nat.lt_or_ge (st.rx_message_length + st.rx_message_start) st.rx_buf_head
      with hlt | hge
    · rw [receive_step_body_complete_undrained_ok codec st r h1 hb hst hlt hmlen hmst hhead hdec]
      rfl
    · have heq : st.rx_message_length + st.rx_message_start = st.rx_buf_head := by omega
      rw [receive_step_body_complete_ok codec st r h1 hb hst heq hmlen hmst hhead hdec]
      rfl

/-- Closed witness for C2: (a) in the Body state of a frame of declared
length 2, a `$` at the read position abandons the frame, queues the warning
and restarts parsing; (b) with a non-token byte at the read position the
same frame completes positionally even though its second payload byte is
`$`. -/
theorem C2_payload_token_scanning_witness :
    rx_loop jsonish (2 + 1) (c2state 36)
      = rx_loop jsonish 2
          { c2state 36 with
            led := true,
            TX_STATUS_MSG_BUFFER := [],
            diags_sent := (c2state 36).diags_sent ++ [MSG_PREVIOUS_PACKET_INCOMPLETE],
            rx_buf_tail := (c2state 36).rx_buf_tail + 1,
            rx_state := 1 } ∧
    ((receive_packet jsonish (c2state 123)).map (fun p => (p.1, p.2.rx_data)))
      = some (.PACKET_RECEIVED, [123, 36]) := by
  constructor
  · exact C2_payload_token_scanning.1 (List Nat) jsonish (c2state 36) 2
      (by decide) (by decide) (by decide) (by decide)
  · exact C2_payload_token_scanning.2 (List Nat) jsonish (c2state 123) [123, 36]
      (by decide) (by decide) (by decide) (by decide) (by decide) (by decide) (by decide)
      (by decide)

/-- Counterexample to C2 as stated: feed the complete frame
`$ 00 02 $ x` (declared length 2, first payload byte `$`).  The receiver
enters the Body state after the header, inspects the first payload byte,
finds the start token and abandons the frame: the poll returns
`RX_IN_PROGRESS` with the machine re-parsing a new header (state 2) and the
`PREVIOUS_PACKET_INCOMPLETE` diagnostic queued — the payload byte `$` did
cause the in-progress frame to be abandoned and a new frame to begin. -/
theorem C2_payload_token_scanning_counterexample :
    ((receive_packet jsonish
      ((rx_read_from_serial_to_local_buffer [36, 0, 2, 36, 120]
        (initComm ([] : List Nat))).1)).map
      (fun p => (p.1, p.2.rx_state, p.2.diags_sent)))
    = some (.RX_IN_PROGRESS, 2, [MSG_PREVIOUS_PACKET_INCOMPLETE]) := by decide

theorem takeWhile_append_all {α : Type} (p : α → Bool) (l1 l2 : List α)
    (h : ∀ a ∈ l1, p a = true) :
    (l1 ++ l2).takeWhile p = l1 ++ l2.takeWhile p := by
  induction l1 with
  | nil => simp
  | cons a l ih =>
    have ha : p a = true := h a (List.mem_cons_self a l)
    simp only [List.cons_append, List.takeWhile_cons, ha, if_true]
    rw [ih (fun b hb => h b (List.mem_cons_of_mem a hb))]

theorem cstrlen_spec (buf : Nat → Nat) (p n : Nat)
    (hnz : ∀ i, i < n → buf (p + i) ≠ 0)
    (hterm : buf (p + n) = 0)
    (hrange : p + n < RX_BUFFER_SIZE) :
    (bufBytes buf p (RX_BUFFER_SIZE - p)).takeWhile (fun c => c != 0)
      = bufBytes buf p n ∧ cstrlen buf p = n := by
  have hdecomp : RX_BUFFER_SIZE - p = n + (1 + (RX_BUFFER_SIZE - p - n - 1)) := by
    rw [RX_BUFFER_SIZE] at hrange ⊢
    omega
  have hsplit : bufBytes buf p (RX_BUFFER_SIZE - p)
      = bufBytes buf p n ++ bufBytes buf (p + n) (1 + (RX_BUFFER_SIZE - p - n - 1)) := by
    conv_lhs => rw [hdecomp]
    rw [bufBytes_append]
  have hall : ∀ a ∈ bufBytes buf p n, (fun c => c != 0) a = true := by
    intro a ha
    simp only [bufBytes, List.mem_map] at ha
    obtain ⟨j, hj, rfl⟩ := ha
    rw [List.mem_range'_1] at hj
    have := hnz (j - p) (by omega)
    rw [show p + (j - p) = j by omega] at this
    simpa using this
  have htail : (bufBytes buf (p + n) (1 + (RX_BUFFER_SIZE - p - n - 1))).takeWhile
      (fun c => c != 0) = [] := by
    rw [show 1 + (RX_BUFFER_SIZE - p - n - 1) = (RX_BUFFER_SIZE - p - n - 1) + 1 by omega]
    rw [bufBytes_succ]
    simp [List.takeWhile_cons, hterm]
  have hmain : (bufBytes buf p (RX_BUFFER_SIZE - p)).takeWhile (fun c => c != 0)
      = bufBytes buf p n := by
    rw [hsplit, takeWhile_append_all _ _ _ hall, htail, List.append_nil]
  refine ⟨hmain, ?_⟩
  rw [cstrlen, hmain, bufBytes_length]

theorem message_append_fits (mb msg : List Nat)
    (h : mb.length + msg.length + 1 ≤ TX_STATUS_MSG_BUFFER_SIZE) :
    message_append mb msg = (true, mb ++ msg) := by
  rw [TX_STATUS_MSG_BUFFER_SIZE] at h
  have hcond : msg.length < TX_STATUS_MSG_BUFFER_SIZE - mb.length := by
    rw [TX_STATUS_MSG_BUFFER_SIZE]
    omega
  simp only [message_append, if_pos hcond]
  rw [List.take_of_length_le (by rw [TX_STATUS_MSG_BUFFER_SIZE]; omega)]

theorem message_append_bytes_fits (buf : Nat → Nat) (mb : List Nat)
    (p n : Nat)
    (hnz : ∀ i, i < n → buf (p + i) ≠ 0)
    (hterm : buf (p + n) = 0)
    (hrange : p + n < RX_BUFFER_SIZE)
    (h : mb.length + n + 1 ≤ TX_STATUS_MSG_BUFFER_SIZE) :
    message_append_bytes buf mb p n = (true, mb ++ bufBytes buf p n) := by
  obtain ⟨hsrc, hlen⟩ := cstrlen_spec buf p n hnz hterm hrange
  rw [TX_STATUS_MSG_BUFFER_SIZE] at h
  have hcond : cstrlen buf p < TX_STATUS_MSG_BUFFER_SIZE - mb.length := by
    rw [hlen, TX_STATUS_MSG_BUFFER_SIZE]
    omega
  have hmin : min (n + 1) (TX_STATUS_MSG_BUFFER_SIZE - mb.length) = n + 1 := by
    rw [TX_STATUS_MSG_BUFFER_SIZE]
    omega
  simp only [message_append_bytes, if_pos hcond, hsrc, hmin]
  rw [Nat.add_sub_cancel]
  rw [List.take_of_length_le (by rw [bufBytes_length])]

/-- C6 (corrected): a completed frame whose payload fails to decode makes
`receive_packet` return `DESERIALIZATION_FAILED`, leave the previously held
decoded record `rx_data` untouched, and submit one diagnostic through
`message_enqueue_for_transmit` (after which the status-message buffer is
clear again).  The diagnostic contains the decode error text followed by the
raw payload bytes whenever `"Error: " + error + " when deserializing: "`
plus the payload fits the 128-byte status-message buffer (the hypotheses
`herr`/`hnz`/`hterm` below); a longer payload is truncated to the marker
`" ..."` (see the counterexample). -/
theorem C6_decode_failure {ρ : Type} (codec : Codec ρ) (st : CommState ρ)
    (hst : st.rx_state = 3)
    (h1 : st.rx_buf_tail < st.rx_buf_head)
    (hb : st.RX_BUFFER st.rx_buf_tail ≠ PACKET_START_TOKEN)
    (hfull : st.rx_message_length + st.rx_message_start ≤ st.rx_buf_head)
    (hmlen : st.rx_message_length < 65536)
    (hmst : st.rx_message_start < 4294967296)
    (hhead : st.rx_buf_head < 4294967296)
    (hmb : st.TX_STATUS_MSG_BUFFER = [])
    (hdec : codec.decode
      (bufBytes st.RX_BUFFER st.rx_message_start st.rx_message_length) = none)
    (herr : MSG_ERROR_HEAD.length
        + (codec.errText (bufBytes st.RX_BUFFER st.rx_message_start
            st.rx_message_length)).length
        + MSG_WHEN_DESERIALIZING.length + st.rx_message_length + 1
        ≤ TX_STATUS_MSG_BUFFER_SIZE)
    (hnz : ∀ i, i < st.rx_message_length → st.RX_BUFFER (st.rx_message_start + i) ≠ 0)
    (hterm : st.RX_BUFFER (st.rx_message_start + st.rx_message_length) = 0)
    (hrange : st.rx_message_start + st.rx_message_length < RX_BUFFER_SIZE) :
    ((receive_packet codec st).map
      (fun p => (p.1, p.2.rx_data, p.2.TX_STATUS_MSG_BUFFER, p.2.diags_sent)))
    = some (.DESERIALIZATION_FAILED, st.rx_data, [],
        st.diags_sent
          ++ [MSG_ERROR_HEAD
              ++ codec.errText (bufBytes st.RX_BUFFER st.rx_message_start
                  st.rx_message_length)
              ++ (MSG_WHEN_DESERIALIZING
                  ++ bufBytes st.RX_BUFFER st.rx_message_start st.rx_message_length)]) := by
  have hE : MSG_ERROR_HEAD.length = 7 := by decide
  have hW : MSG_WHEN_DESERIALIZING.length = 21 := by decide
  rw [TX_STATUS_MSG_BUFFER_SIZE, hE, hW] at herr
  obtain ⟨buf, tail, head, state, mst, mlen, data, txb, txt, txh, msgb, led, dg, rs⟩ := st
  simp only at hst h1 hb hfull hmlen hmst hhead hmb hdec herr hnz hterm hrange ⊢
  subst hst
  subst hmb
  have hm1 : message_append [] MSG_ERROR_HEAD = (true, MSG_ERROR_HEAD) := by
    have := message_append_fits [] MSG_ERROR_HEAD
      (by rw [TX_STATUS_MSG_BUFFER_SIZE]; simp [hE])
    simpa using this
  have hm2 : message_append MSG_ERROR_HEAD
      (codec.errText (bufBytes buf mst mlen))
      = (true, MSG_ERROR_HEAD ++ codec.errText (bufBytes buf mst mlen)) := by
    apply message_append_fits
    rw [TX_STATUS_MSG_BUFFER_SIZE, hE]
    omega
  have hm3 : message_append (MSG_ERROR_HEAD ++ codec.errText (bufBytes buf mst mlen))
      MSG_WHEN_DESERIALIZING
      = (true, MSG_ERROR_HEAD ++ codec.errText (bufBytes buf mst mlen)
          ++ MSG_WHEN_DESERIALIZING) := by
    apply message_append_fits
    rw [TX_STATUS_MSG_BUFFER_SIZE, hW]
    simp only [List.length_append, hE]
    omega
  have hm4 : (message_append_bytes buf
      (MSG_ERROR_HEAD ++ (codec.errText (bufBytes buf mst mlen)
        ++ MSG_WHEN_DESERIALIZING)) mst mlen).2
      = MSG_ERROR_HEAD ++ (codec.errText (bufBytes buf mst mlen)
          ++ (MSG_WHEN_DESERIALIZING ++ bufBytes buf mst mlen)) := by
    have hfit := message_append_bytes_fits buf
      (MSG_ERROR_HEAD ++ (codec.errText (bufBytes buf mst mlen)
        ++ MSG_WHEN_DESERIALIZING)) mst mlen hnz hterm hrange
      (by rw [TX_STATUS_MSG_BUFFER_SIZE]
          simp only [List.length_append, hE, hW]
          omega)
    rw [hfit]
    simp
  have h2 : ¬ (tail = head) := by omega
  rcases Nat.lt_or_ge (mlen + mst) head with hlt | hge
  · have hmin : min (mlen + mst) head = mlen + mst := by omega
    have hne : ¬ (mlen + mst = head) := by omega
    have hiff := body_wait_iff mlen mst head hmlen hmst hhead
    rw [hmin] at hiff
    have hz : usub mlen (usub (mlen + mst) mst) = 0 := by
      have hnp : ¬ (0 < usub mlen (usub (mlen + mst) mst)) := by rw [hiff]; omega
      omega
    simp [receive_packet, rx_loop, hb, h2, h1, hmin, hz, hdec, hne,
      submit_diag_bytes, hm1, hm2, hm3, hm4]
  · have heq : mlen + mst = head := by omega
    have hmin : min (mlen + mst) head = head := by omega
    have hiff := body_wait_iff mlen mst head hmlen hmst hhead
    rw [hmin] at hiff
    have hz : usub mlen (usub head mst) = 0 := by
      have hnp : ¬ (0 < usub mlen (usub head mst)) := by rw [hiff]; omega
      omega
    simp [receive_packet, rx_loop, hb, h2, h1, hmin, hz, hdec,
      submit_diag_bytes, hm1, hm2, hm3, hm4]

/-- Closed witness for C6: a 1-byte payload `a` fails to decode; the poll
returns `DESERIALIZATION_FAILED`, `rx_data` keeps its previous value and the
submitted diagnostic is `Error: InvalidInput when deserializing: a`. -/
theorem C6_decode_failure_witness :
    ((receive_packet jsonish c6state).map
      (fun p => (p.1, p.2.rx_data, p.2.TX_STATUS_MSG_BUFFER, p.2.diags_sent)))
    = some (.DESERIALIZATION_FAILED, [123], [],
        [MSG_ERROR_HEAD ++ str2bytes ("InvalidInput")
          ++ (MSG_WHEN_DESERIALIZING ++ [97])]) := by
  have h := C6_decode_failure jsonish c6state
    (by decide) (by decide) (by decide) (by decide) (by decide) (by decide) (by decide)
    (by decide) (by decide) (by decide) (by decide) (by decide) (by decide)
  rw [h]
  decide

set_option maxRecDepth 100000 in
/-- Counterexample to C6 as stated: an undecodable 200-byte payload is
received in full; the call returns `DESERIALIZATION_FAILED`, but the queued
diagnostic holds only 127 characters ending in the truncation marker
`" ..."`, so it does not contain the raw payload bytes — the 200 raw bytes
are not a contiguous part of it. -/
theorem C6_decode_failure_counterexample :
    ((receive_packet jsonish
      ((rx_read_from_serial_to_local_buffer ([36, 0, 200] ++ List.replicate 200 97)
        (initComm ([] : List Nat))).1)).map
      (fun p => (p.1, p.2.diags_sent.map List.length)))
      = some (.DESERIALIZATION_FAILED, [127]) ∧
    ¬ (List.replicate 200 97 <:+: c6longDiag) ∧
    TX_STATUS_MSG_TRUNC_IND <:+ c6longDiag := by
  refine ⟨by decide, ?_, by decide⟩
  intro h
  have hlen := h.length_le
  rw [List.length_replicate] at hlen
  have : c6longDiag.length = 127 := by decide
  omega

theorem rx_feed_loop_resets {ρ : Type} (bs : List Nat) (st : CommState ρ) :
    ∃ ev, ((rx_feed_loop bs st).1).rx_resets = st.rx_resets ++ ev
      ∧ ∀ e ∈ ev, e.site = 0 ∧ RX_BUFFER_SIZE ≤ e.h := by
  induction bs generalizing st with
  | nil => exact ⟨[], by simp [rx_feed_loop], by simp⟩
  | cons b rest ih =>
    by_cases h : st.rx_buf_head < RX_BUFFER_SIZE
    · simp only [rx_feed_loop, if_pos h]
      obtain ⟨ev, he, hall⟩ := ih
        { st with
          RX_BUFFER := fun i => if i = st.rx_buf_head then b else st.RX_BUFFER i,
          rx_buf_head := st.rx_buf_head + 1 }
      exact ⟨ev, he, hall⟩
    · simp only [rx_feed_loop, if_neg h]
      refine ⟨[⟨0, st.rx_buf_tail, st.rx_buf_head⟩], by simp [submit_diag], ?_⟩
      intro e he
      simp only [List.mem_singleton] at he
      subst he
      refine ⟨rfl, ?_⟩
      show RX_BUFFER_SIZE ≤ st.rx_buf_head
      omega

theorem rx_loop_resets {ρ : Type} (codec : Codec ρ) :
    ∀ (fuel : Nat) (st : CommState ρ) (c : ReceiveCode) (st' : CommState ρ),
      rx_loop codec fuel st = some (c, st') →
      ∃ ev, st'.rx_resets = st.rx_resets ++ ev ∧
        ∀ e ∈ ev, e.site = 1 ∨ (e.site = 2 ∧ e.t = e.h) := by
  intro fuel
  induction fuel with
  | zero =>
    intro st c st' h
    simp [rx_loop] at h
  | succ f ih =>
    intro st c st' h
    simp only [rx_loop] at h
    by_cases h1 : st.rx_buf_tail < st.rx_buf_head
    · rw [if_pos h1] at h
      by_cases hb : st.RX_BUFFER st.rx_buf_tail = PACKET_START_TOKEN
      · rw [if_pos hb] at h
        obtain ⟨ev, he, hall⟩ := ih _ _ _ h
        refine ⟨ev, ?_, hall⟩
        rw [he]
        by_cases h0 : st.rx_state ≠ 0 <;> simp [submit_diag, h0]
      · rw [if_neg hb] at h
        rcases hstate : st.rx_state with _ | _ | _ | _ | n
        · rw [hstate] at h
          exact ih _ _ _ h
        · rw [hstate] at h
          obtain ⟨ev, he, hall⟩ := ih _ _ _ h
          exact ⟨ev, he, hall⟩
        · rw [hstate] at h
          by_cases hlen : st.rx_message_length ||| st.RX_BUFFER st.rx_buf_tail > RX_BUFFER_SIZE
          · rw [if_pos hlen] at h
            simp only [Option.some.injEq, Prod.mk.injEq] at h
            obtain ⟨hc, hst'⟩ := h
            refine ⟨[⟨1, st.rx_buf_tail, st.rx_buf_head⟩], ?_, ?_⟩
            · rw [← hst']
            · intro e he
              simp only [List.mem_singleton] at he
              subst he
              exact Or.inl rfl
          · rw [if_neg hlen] at h
            obtain ⟨ev, he, hall⟩ := ih _ _ _ h
            exact ⟨ev, he, hall⟩
        · rw [hstate] at h
          by_cases hwait : 0 < usub st.rx_message_length
              (usub (min (st.rx_message_length + st.rx_message_start) st.rx_buf_head)
                st.rx_message_start)
          · rw [if_pos hwait] at h
            simp only [Option.some.injEq, Prod.mk.injEq] at h
            obtain ⟨hc, hst'⟩ := h
            exact ⟨[], by rw [← hst']; simp, by simp⟩
          · rw [if_neg hwait] at h
            by_cases hdr : min (st.rx_message_length + st.rx_message_start) st.rx_buf_head
                = st.rx_buf_head
            · rw [if_pos hdr] at h
              rcases hdec : codec.decode (bufBytes st.RX_BUFFER st.rx_message_start
                  st.rx_message_length) with _ | r
              · rw [hdec] at h
                simp only [Option.some.injEq, Prod.mk.injEq] at h
                obtain ⟨hc, hst'⟩ := h
                refine ⟨[⟨2, min (st.rx_message_length + st.rx_message_start)
                    st.rx_buf_head, st.rx_buf_head⟩], ?_, ?_⟩
                · rw [← hst']
                  simp [submit_diag_bytes]
                · intro e he
                  simp only [List.mem_singleton] at he
                  subst he
                  exact Or.inr ⟨rfl, hdr⟩
              · rw [hdec] at h
                simp only [Option.some.injEq, Prod.mk.injEq] at h
                obtain ⟨hc, hst'⟩ := h
                refine ⟨[⟨2, min (st.rx_message_length + st.rx_message_start)
                    st.rx_buf_head, st.rx_buf_head⟩], ?_, ?_⟩
                · rw [← hst']
                · intro e he
                  simp only [List.mem_singleton] at he
                  subst he
                  exact Or.inr ⟨rfl, hdr⟩
            · rw [if_neg hdr] at h
              rcases hdec : codec.decode (bufBytes st.RX_BUFFER st.rx_message_start
                  st.rx_message_length) with _ | r
              · rw [hdec] at h
                simp only [Option.some.injEq, Prod.mk.injEq] at h
                obtain ⟨hc, hst'⟩ := h
                exact ⟨[], by rw [← hst']; simp [submit_diag_bytes], by simp⟩
              · rw [hdec] at h
                simp only [Option.some.injEq, Prod.mk.injEq] at h
                obtain ⟨hc, hst'⟩ := h
                exact ⟨[], by rw [← hst']; simp, by simp⟩
        · rw [hstate] at h
          exact ih _ _ _ h
    · rw [if_neg h1] at h
      simp only [Option.some.injEq, Prod.mk.injEq] at h
      obtain ⟨hc, hst'⟩ := h
      exact ⟨[], by rw [← hst']; simp, by simp⟩

/-- C7 (corrected): the receive offsets are only ever reset to 0 together at
three program points, recorded in the ghost log `rx_resets`.  The feeder
resets only on its overflow-discard path (site 0, which fires only with the
buffer completely full, `RX_BUFFER_SIZE ≤ rx_buf_head`); `receive_packet`
resets either on the oversized-length discard path (site 1) or at the
drained-buffer recycle point (site 2), and every site-2 reset indeed
happens with `rx_buf_tail = rx_buf_head`.  Contrary to the claim, the two
discard sites may reset while undrained bytes remain between the offsets
(see the counterexample). -/
theorem C7_reset_sites :
    (∀ (ρ : Type) (bs : List Nat) (st : CommState ρ),
      ∃ ev, ((rx_read_from_serial_to_local_buffer bs st).1).rx_resets
          = st.rx_resets ++ ev
        ∧ ∀ e ∈ ev, e.site = 0 ∧ RX_BUFFER_SIZE ≤ e.h) ∧
    (∀ (ρ : Type) (codec : Codec ρ) (st : CommState ρ) (c : ReceiveCode)
        (st' : CommState ρ),
      receive_packet codec st = some (c, st') →
      ∃ ev, st'.rx_resets = st.rx_resets ++ ev ∧
        ∀ e ∈ ev, e.site = 1 ∨ (e.site = 2 ∧ e.t = e.h)) := by
  constructor
  · intro ρ bs st
    rw [rx_read_from_serial_to_local_buffer]
    by_cases h63 : bs.length = 63
    · rw [if_pos h63]
      obtain ⟨ev, he, hall⟩ := rx_feed_loop_resets bs (submit_diag st MSG_INSUFFICIENT_RECEIVE_RATE)
      refine ⟨ev, ?_, hall⟩
      rw [he]
      rfl
    · rw [if_neg h63]
      exact rx_feed_loop_resets bs st
  · intro ρ codec st c st' h
    rw [receive_packet] at h
    by_cases hempty : st.rx_buf_tail = st.rx_buf_head
    · rw [if_pos hempty] at h
      simp only [Option.some.injEq, Prod.mk.injEq] at h
      obtain ⟨hc, hst'⟩ := h
      exact ⟨[], by rw [← hst']; simp, by simp⟩
    · rw [if_neg hempty] at h
      exact rx_loop_resets codec _ st c st' h

/-- Closed witness for C7: the oversized-length rejection on `c7state` logs
exactly the site-1 discard event `⟨1, 2, 4⟩`, which the theorem classifies. -/
theorem C7_reset_sites_witness :
    c7after.rx_resets = [⟨1, 2, 4⟩] ∧
    ((⟨1, 2, 4⟩ : ResetEv).site = 1 ∨
      ((⟨1, 2, 4⟩ : ResetEv).site = 2 ∧ (⟨1, 2, 4⟩ : ResetEv).t = (⟨1, 2, 4⟩ : ResetEv).h)) := by
  refine ⟨by decide, ?_⟩
  obtain ⟨ev, he, hall⟩ := C7_reset_sites.2 (List Nat) jsonish c7state
    .MESSAGE_EXCEEDS_RX_BUFFER_SIZE c7after rfl
  have h1 : c7after.rx_resets = [⟨1, 2, 4⟩] := by decide
  have h2 : c7state.rx_resets = [] := by decide
  rw [h1, h2] at he
  simp only [List.nil_append] at he
  exact hall ⟨1, 2, 4⟩ (by rw [← he]; exact List.mem_singleton_self _)

/-- Counterexample to C7 as stated: polling `c7state` (4 buffered bytes, an
oversized declared length) returns `MESSAGE_EXCEEDS_RX_BUFFER_SIZE` and sets
both offsets to 0 at a moment logged as `⟨site 1, tail 2, head 4⟩`: the
tail had consumed only 2 of the 4 buffered bytes, so the offsets were reset
while undrained bytes remained between them. -/
theorem C7_reset_sites_counterexample :
    ((receive_packet jsonish c7state).map (fun p => (p.1, p.2.rx_resets)))
      = some (.MESSAGE_EXCEEDS_RX_BUFFER_SIZE, [⟨1, 2, 4⟩]) ∧
    (⟨1, 2, 4⟩ : ResetEv).t ≠ (⟨1, 2, 4⟩ : ResetEv).h ∧
    c7state.rx_buf_tail = 0 ∧ c7state.rx_buf_head = 4 := by
  refine ⟨by decide, by decide, by decide, by decide⟩

theorem lor_lt_65536 (a b : Nat) (ha : a < 65536) (hb : b < 65536) :
    a ||| b < 65536 := by
  have h : (65536 : Nat) = 2 ^ 16 := by norm_num
  rw [h] at ha hb ⊢
  exact Nat.bitwise_lt ha hb

theorem rx_loop_received_bound {ρ : Type} (codec : Codec ρ) :
    ∀ (fuel : Nat) (st : CommState ρ) (st' : CommState ρ),
      (∀ i, st.RX_BUFFER i < 256) →
      st.rx_message_length < 65536 →
      st.rx_message_start < 4294967296 →
      st.rx_buf_head < 4294967296 →
      rx_loop codec fuel st = some (.PACKET_RECEIVED, st') →
      st'.rx_message_start + st'.rx_message_length ≤ st.rx_buf_head := by
  intro fuel
  induction fuel with
  | zero =>
    intro st st' _ _ _ _ h
    simp [rx_loop] at h
  | succ f ih =>
    intro st st' hbyte hmlen hmst hhead h
    simp only [rx_loop] at h
    by_cases h1 : st.rx_buf_tail < st.rx_buf_head
    · rw [if_pos h1] at h
      by_cases hb : st.RX_BUFFER st.rx_buf_tail = PACKET_START_TOKEN
      · rw [if_pos hb] at h
        by_cases h0 : st.rx_state ≠ 0
        · rw [if_pos h0] at h
          refine Nat.le_trans (ih _ _ ?_ ?_ ?_ ?_ h) (Nat.le_refl _)
          · exact hbyte
          · exact hmlen
          · exact hmst
          · exact hhead
        · rw [if_neg h0] at h
          refine Nat.le_trans (ih _ _ ?_ ?_ ?_ ?_ h) (Nat.le_refl _)
          · exact hbyte
          · exact hmlen
          · exact hmst
          · exact hhead
      · rw [if_neg hb] at h
        rcases hstate : st.rx_state with _ | _ | _ | _ | n
        · rw [hstate] at h
          refine Nat.le_trans (ih _ _ ?_ ?_ ?_ ?_ h) (Nat.le_refl _)
          · exact hbyte
          · exact hmlen
          · exact hmst
          · exact hhead
        · rw [hstate] at h
          refine Nat.le_trans (ih _ _ ?_ ?_ ?_ ?_ h) (Nat.le_refl _)
          · exact hbyte
          · show st.RX_BUFFER st.rx_buf_tail <<< 8 < 65536
            rw [Nat.shiftLeft_eq]
            have := hbyte st.rx_buf_tail
            calc st.RX_BUFFER st.rx_buf_tail * 2 ^ 8 ≤ 255 * 2 ^ 8 := by
                  apply Nat.mul_le_mul_right
                  omega
              _ < 65536 := by norm_num
          · exact hmst
          · exact hhead
        · rw [hstate] at h
          by_cases hlen : st.rx_message_length ||| st.RX_BUFFER st.rx_buf_tail > RX_BUFFER_SIZE
          · rw [if_pos hlen] at h
            simp at h
          · rw [if_neg hlen] at h
            refine Nat.le_trans (ih _ _ ?_ ?_ ?_ ?_ h) (Nat.le_refl _)
            · exact hbyte
            · show st.rx_message_length ||| st.RX_BUFFER st.rx_buf_tail < 65536
              exact lor_lt_65536 _ _ hmlen (by have := hbyte st.rx_buf_tail; omega)
            · show st.rx_buf_tail + 1 < 4294967296
              omega
            · exact hhead
        · rw [hstate] at h
          by_cases hwait : 0 < usub st.rx_message_length
              (usub (min (st.rx_message_length + st.rx_message_start) st.rx_buf_head)
                st.rx_message_start)
          · rw [if_pos hwait] at h
            simp at h
          · rw [if_neg hwait] at h
            have hcomplete : st.rx_message_length + st.rx_message_start ≤ st.rx_buf_head := by
              have hiff := body_wait_iff st.rx_message_length st.rx_message_start
                st.rx_buf_head hmlen hmst hhead
              rw [hiff] at hwait
              omega
            by_cases hdr : min (st.rx_message_length + st.rx_message_start) st.rx_buf_head
                = st.rx_buf_head
            · rw [if_pos hdr] at h
              rcases hdec : codec.decode (bufBytes st.RX_BUFFER st.rx_message_start
                  st.rx_message_length) with _ | r
              · rw [hdec] at h
                simp at h
              · rw [hdec] at h
                simp only [Option.some.injEq, Prod.mk.injEq] at h
                obtain ⟨_, hst'⟩ := h
                rw [← hst']
                show st.rx_message_start + st.rx_message_length ≤ st.rx_buf_head
                omega
            · rw [if_neg hdr] at h
              rcases hdec : codec.decode (bufBytes st.RX_BUFFER st.rx_message_start
                  st.rx_message_length) with _ | r
              · rw [hdec] at h
                simp at h
              · rw [hdec] at h
                simp only [Option.some.injEq, Prod.mk.injEq] at h
                obtain ⟨_, hst'⟩ := h
                rw [← hst']
                show st.rx_message_start + st.rx_message_length ≤ st.rx_buf_head
                omega
        · rw [hstate] at h
          refine Nat.le_trans (ih _ _ ?_ ?_ ?_ ?_ h) (Nat.le_refl _)
          · exact hbyte
          · exact hmlen
          · exact hmst
          · exact hhead
    · rw [if_neg h1] at h
      simp at h

/-- C10 (corrected): (i) every declared length `L` with
`RX_BUFFER_SIZE - 2 ≤ L ≤ RX_BUFFER_SIZE` passes the oversize check and
takes the receiver into the Body state with `rx_message_start` ≥ 3; (ii) a
frame can only ever be delivered (`PACKET_RECEIVED`) when
`rx_message_start + rx_message_length ≤ rx_buf_head`, and the head offset
never exceeds the buffer capacity, so with `rx_message_start ≥ 3` and
`L ≥ RX_BUFFER_SIZE - 2` the frame can never complete — `receive_packet`
never returns `PACKET_RECEIVED` for it; (iii) while such a frame is current
and the inspected byte is no start token, every poll returns
`RX_IN_PROGRESS` with the frame untouched.  (Contrary to the claim's last
clause, a start-token byte arriving mid-frame can also end the wait with a
code other than `RX_IN_PROGRESS` before any feeder overflow — see the
counterexample.) -/
theorem C10_uncompletable_lengths :
    (∀ (ρ : Type) (codec : Codec ρ) (st : CommState ρ) (t L : Nat),
      RX_BUFFER_SIZE - 2 ≤ L → L ≤ RX_BUFFER_SIZE →
      st.rx_state = 0 → st.rx_buf_tail = t → st.rx_buf_head = t + 3 →
      st.RX_BUFFER t = PACKET_START_TOKEN →
      st.RX_BUFFER (t + 1) = L / 256 →
      st.RX_BUFFER (t + 2) = L % 256 →
      receive_packet codec st
        = some (.RX_IN_PROGRESS,
            { st with
              led := true,
              rx_message_length := L,
              rx_message_start := t + 3,
              rx_buf_tail := t + 3,
              rx_state := 3 })) ∧
    (∀ (ρ : Type) (codec : Codec ρ) (st st' : CommState ρ),
      (∀ i, st.RX_BUFFER i < 256) →
      st.rx_message_length < 65536 →
      st.rx_message_start < 4294967296 →
      st.rx_buf_head < 4294967296 →
      receive_packet codec st = some (.PACKET_RECEIVED, st') →
      st'.rx_message_start + st'.rx_message_length ≤ st.rx_buf_head) ∧
    (∀ (ρ : Type) (codec : Codec ρ) (st : CommState ρ),
      st.rx_state = 3 →
      RX_BUFFER_SIZE - 2 ≤ st.rx_message_length →
      3 ≤ st.rx_message_start →
      st.rx_buf_tail < st.rx_buf_head →
      st.rx_buf_head ≤ RX_BUFFER_SIZE →
      st.rx_message_length < 65536 →
      st.rx_message_start < 4294967296 →
      st.RX_BUFFER st.rx_buf_tail ≠ PACKET_START_TOKEN →
      receive_packet codec st
        = some (.RX_IN_PROGRESS, { st with rx_buf_tail := st.rx_buf_head })) := by
  refine ⟨?_, ?_, ?_⟩
  · intro ρ codec st t L hL1 hL2 hst htail hhead hb0 hb1 hb2
    rw [RX_BUFFER_SIZE] at hL1 hL2
    have hdiv : L / 256 = 5 := by omega
    have hmod : L % 256 = L - 1280 := by omega
    have hlen : (st.RX_BUFFER (t + 1) <<< 8) ||| st.RX_BUFFER (t + 2) = L := by
      rw [hb1, hb2, shiftLeft8_lor_eq _ _ (by omega)]
      omega
    rw [receive_header_enters_body codec st t hst htail hhead hb0
      (by rw [hb1, hdiv]; decide)
      (by rw [hb2, hmod]; simp only [PACKET_START_TOKEN]; omega)
      (by rw [hlen, RX_BUFFER_SIZE]; omega)]
    rw [hlen]
  · intro ρ codec st st' hbyte hmlen hmst hhead h
    rw [receive_packet] at h
    by_cases hempty : st.rx_buf_tail = st.rx_buf_head
    · rw [if_pos hempty] at h
      simp at h
    · rw [if_neg hempty] at h
      exact rx_loop_received_bound codec _ st st' hbyte hmlen hmst hhead h
  · intro ρ codec st hst hL hmst3 h1 hcap hmlen hmst hb
    rw [RX_BUFFER_SIZE] at hL hcap
    have hwait : st.rx_buf_head < st.rx_message_length + st.rx_message_start := by omega
    rw [receive_step_body_wait codec st h1 hb hst hwait hmlen hmst (by omega)]
    have hmin : min (st.rx_message_length + st.rx_message_start) st.rx_buf_head
        = st.rx_buf_head := by omega
    rw [hmin]

/-- Closed witness for C10: with the header `$ 05 DA` (declared length
1498) the receiver enters Body; the complete 2-byte frame of `c2state 123`
is delivered with `rx_message_start + rx_message_length = 5 ≤ rx_buf_head`;
and a poll of the never-completable Body state `c10body` returns
`RX_IN_PROGRESS` with the frame preserved. -/
theorem C10_uncompletable_lengths_witness :
    ((receive_packet jsonish
      ((rx_read_from_serial_to_local_buffer [36, 5, 218]
        (initComm ([] : List Nat))).1)).map
      (fun p => (p.1, p.2.rx_state, p.2.rx_message_length, p.2.rx_message_start)))
      = some (.RX_IN_PROGRESS, 3, 1498, 3) ∧
    c10after.rx_message_start + c10after.rx_message_length
      ≤ (c2state 123).rx_buf_head ∧
    ((receive_packet jsonish c10body).map
      (fun p => (p.1, p.2.rx_buf_tail, p.2.rx_state, p.2.rx_message_length)))
      = some (.RX_IN_PROGRESS, 4, 3, 1498) := by
  refine ⟨?_, ?_, ?_⟩
  · rw [C10_uncompletable_lengths.1 (List Nat) jsonish
      ((rx_read_from_serial_to_local_buffer [36, 5, 218]
        (initComm ([] : List Nat))).1) 0 1498
      (by decide) (by decide) (by decide) (by decide) (by decide) (by decide)
      (by decide) (by decide)]
    rfl
  · refine C10_uncompletable_lengths.2.1 (List Nat) jsonish (c2state 123) c10after
      ?_ (by decide) (by decide) (by decide) rfl
    intro i
    show ([36, 0, 2, 123, 36].getD i 0) < 256
    by_cases hi : i < 5
    · interval_cases i <;> decide
    · rw [List.getD_eq_default]
      · decide
      · simp
        omega
  · rw [C10_uncompletable_lengths.2.2 (List Nat) jsonish c10body
      (by decide) (by decide) (by decide) (by decide) (by decide) (by decide)
      (by decide) (by decide)]
    rfl

/-- Counterexample to C10's trailing clause as stated: `c10state` holds an
accepted, never-completable frame (declared length 1498, Body state), but
the next poll does not return `RX_IN_PROGRESS`: a start token followed by
the length bytes `FF FF` arrives, the frame is abandoned and the poll
returns `MESSAGE_EXCEEDS_RX_BUFFER_SIZE` — a code other than
`RX_IN_PROGRESS` before any feeder overflow reset discarded the bytes. -/
theorem C10_uncompletable_lengths_counterexample :
    c10state.rx_state = 3 ∧ c10state.rx_message_length = 1498 ∧
    RX_BUFFER_SIZE - 2 ≤ 1498 ∧
    ((receive_packet jsonish
      ((rx_read_from_serial_to_local_buffer [36, 255, 255] c10state).1)).map
        Prod.fst)
      = some .MESSAGE_EXCEEDS_RX_BUFFER_SIZE := by
  refine ⟨by decide, by decide, by decide, by decide⟩

theorem async_transmit_shape {ρ : Type} (avail : Nat) (st : CommState ρ) :
    ∃ a b : Nat,
      (async_transmit avail st).2 = { st with tx_buf_tail := a, tx_buf_head := b } := by
  by_cases hgt : st.tx_buf_head > st.tx_buf_tail
  · by_cases ha : avail > 0
    · by_cases hdone : st.tx_buf_tail + min (st.tx_buf_head - st.tx_buf_tail) avail
          = st.tx_buf_head
      · exact ⟨0, 0, by simp only [async_transmit, if_pos hgt, if_pos ha, if_pos hdone]⟩
      · refine ⟨st.tx_buf_tail + min (st.tx_buf_head - st.tx_buf_tail) avail,
          st.tx_buf_head, ?_⟩
        simp only [async_transmit, if_pos hgt, if_pos ha, if_neg hdone]
    · exact ⟨st.tx_buf_tail, st.tx_buf_head,
        by simp only [async_transmit, if_pos hgt, if_neg ha]⟩
  · exact ⟨st.tx_buf_tail, st.tx_buf_head, by simp only [async_transmit, if_neg hgt]⟩

theorem drainAll_shape {ρ : Type} (sched : List Nat) (st : CommState ρ) :
    ∃ a b : Nat,
      (drainAll sched st).2 = { st with tx_buf_tail := a, tx_buf_head := b } := by
  induction sched generalizing st with
  | nil => exact ⟨st.tx_buf_tail, st.tx_buf_head, rfl⟩
  | cons a rest ih =>
    obtain ⟨t1, h1, he1⟩ := async_transmit_shape a st
    obtain ⟨t2, h2, he2⟩ := ih ((async_transmit a st).2)
    refine ⟨t2, h2, ?_⟩
    show (drainAll rest (async_transmit a st).2).2 = _
    rw [he2, he1]

theorem rx_read_fields {ρ : Type} (bs : List Nat) (st : CommState ρ)
    (h : st.rx_buf_head + bs.length ≤ RX_BUFFER_SIZE) :
    ((rx_read_from_serial_to_local_buffer bs st).1).RX_BUFFER
        = writeBytes st.RX_BUFFER st.rx_buf_head bs
    ∧ ((rx_read_from_serial_to_local_buffer bs st).1).rx_buf_head
        = st.rx_buf_head + bs.length
    ∧ ((rx_read_from_serial_to_local_buffer bs st).1).rx_buf_tail = st.rx_buf_tail
    ∧ ((rx_read_from_serial_to_local_buffer bs st).1).rx_state = st.rx_state := by
  rw [rx_read_from_serial_to_local_buffer]
  by_cases h63 : bs.length = 63
  · rw [if_pos h63]
    rw [rx_feed_loop_spec bs (submit_diag st MSG_INSUFFICIENT_RECEIVE_RATE) h]
    exact ⟨rfl, rfl, rfl, rfl⟩
  · rw [if_neg h63]
    rw [rx_feed_loop_spec bs st h]
    exact ⟨rfl, rfl, rfl, rfl⟩

/-- C1 (corrected): the round trip works whenever, in addition to the size
bound, the low byte of the encoded length is not the start-token value and
the first encoded byte is not the start-token value (both restrictions are
missing from the claim), the codec decodes its own output, and the schedule
drains the transmit buffer completely: the enqueue succeeds and the single
receive poll after feeding the drained bytes returns `PACKET_RECEIVED` with
the original record. -/
theorem C1_round_trip {ρ : Type} (codec : Codec ρ) (r r0 : ρ) (sched : List Nat)
    (hlen1 : 1 ≤ (codec.encode r).length)
    (hlen2 : (codec.encode r).length ≤ TX_BUFFER_SIZE - 3)
    (hlo : (codec.encode r).length % 256 ≠ PACKET_START_TOKEN)
    (hp0 : (codec.encode r).getD 0 0 ≠ PACKET_START_TOKEN)
    (hdec : codec.decode (codec.encode r) = some r)
    (hdr : (drainAll sched
        (enqueue_for_transmit ⟨codec.encode r, false⟩ (initComm r0)).2).2.tx_buf_head
      = (drainAll sched
        (enqueue_for_transmit ⟨codec.encode r, false⟩ (initComm r0)).2).2.tx_buf_tail) :
    (enqueue_for_transmit ⟨codec.encode r, false⟩ (initComm r0)).1 = .TX_SUCCESS
    ∧ ((round_trip codec r r0 sched).map (fun p => (p.1, p.2.rx_data)))
      = some (.PACKET_RECEIVED, r) := by
  have h2' : (codec.encode r).length ≤ 1497 := by
    rw [TX_BUFFER_SIZE] at hlen2; omega
  have henq := enqueue_success ⟨codec.encode r, false⟩ (initComm r0) rfl
    (by show 0 + (3 + (codec.encode r).length) ≤ TX_BUFFER_SIZE
        rw [TX_BUFFER_SIZE]; omega)
  simp only [round_trip]
  set st1 := (enqueue_for_transmit ⟨codec.encode r, false⟩ (initComm r0)).2 with hst1
  have hTXeq : st1.TX_BUFFER
      = (build_packet ⟨codec.encode r, false⟩ 0 TX_BUFFER_SIZE (fun _ => 0)).2 := by
    rw [hst1, henq]; rfl
  have htail1 : st1.tx_buf_tail = 0 := by rw [hst1, henq]; rfl
  have hhead1 : st1.tx_buf_head = 0 + (3 + (codec.encode r).length) := by
    rw [hst1, henq]; rfl
  have hiB : st1.RX_BUFFER = fun _ => (0 : Nat) := by rw [hst1, henq]; rfl
  have hih : st1.rx_buf_head = 0 := by rw [hst1, henq]; rfl
  have hit : st1.rx_buf_tail = 0 := by rw [hst1, henq]; rfl
  have his : st1.rx_state = 0 := by rw [hst1, henq]; rfl
  obtain ⟨st', hEq, hTB', hts', hle⟩ := drainAll_emits sched st1 (by omega)
  have hdr' : st'.tx_buf_head = st'.tx_buf_tail := by
    rw [hEq] at hdr; exact hdr
  have hcnt : (st1.tx_buf_head - st1.tx_buf_tail) - (st'.tx_buf_head - st'.tx_buf_tail)
      = 3 + (codec.encode r).length := by omega
  have hd2 : (drainAll sched st1).2 = st' := by rw [hEq]
  have hd1 : (drainAll sched st1).1
      = PACKET_START_TOKEN :: ((codec.encode r).length / 256)
          :: ((codec.encode r).length % 256) :: codec.encode r := by
    rw [hEq]
    show bufBytes st1.TX_BUFFER st1.tx_buf_tail
        ((st1.tx_buf_head - st1.tx_buf_tail) - (st'.tx_buf_head - st'.tx_buf_tail)) = _
    rw [hcnt, htail1, hTXeq]
    exact (build_packet_ok ⟨codec.encode r, false⟩ 0 TX_BUFFER_SIZE (fun _ => 0)
      (by show 3 + (codec.encode r).length ≤ TX_BUFFER_SIZE
          rw [TX_BUFFER_SIZE]; omega)).2
  obtain ⟨hA1, hA2, hA3, hA4⟩ :
      st'.RX_BUFFER = st1.RX_BUFFER ∧ st'.rx_buf_tail = st1.rx_buf_tail
      ∧ st'.rx_buf_head = st1.rx_buf_head ∧ st'.rx_state = st1.rx_state := by
    obtain ⟨ta, tb, hsh⟩ := drainAll_shape sched st1
    rw [hd2] at hsh
    rw [hsh]
    exact ⟨rfl, rfl, rfl, rfl⟩
  refine ⟨by rw [henq], ?_⟩
  rw [hd1, hd2]
  obtain ⟨hB3, hH3, hT3, hS3⟩ := rx_read_fields
    (PACKET_START_TOKEN :: ((codec.encode r).length / 256)
      :: ((codec.encode r).length % 256) :: codec.encode r) st'
    (by rw [hA3, hih, RX_BUFFER_SIZE]; simp only [List.length_cons]; omega)
  refine receive_complete_frame codec _ 0 (codec.encode r) r ?_ ?_ ?_ ?_ ?_ ?_ ?_ ?_ ?_
    hlen1 (by rw [RX_BUFFER_SIZE]; omega) (Nat.zero_le _) hdec
  · rw [hS3, hA4, his]
  · rw [hT3, hA2, hit]
  · rw [hH3, hA3, hih]; simp only [List.length_cons]; omega
  · rw [hB3, hA3, hih]
    exact (writeBytes_getD st'.RX_BUFFER 0 _ 0 (by simp)).trans rfl
  · rw [hB3, hA3, hih]
    rw [writeBytes_getD st'.RX_BUFFER 0 _ 1 (by simp)]
    show (codec.encode r).length / 256 ≠ PACKET_START_TOKEN
    simp only [PACKET_START_TOKEN]
    omega
  · rw [hB3, hA3, hih]
    rw [writeBytes_getD st'.RX_BUFFER 0 _ 2 (by simp)]
    exact hlo
  · rw [hB3, hA3, hih]
    rw [writeBytes_getD st'.RX_BUFFER 0 _ 3 (by simp only [List.length_cons]; omega)]
    exact hp0
  · rw [hB3, hA3, hih]
    rw [writeBytes_getD st'.RX_BUFFER 0 _ 1 (by simp),
      writeBytes_getD st'.RX_BUFFER 0 _ 2 (by simp)]
    simp only [List.getD_cons_succ, List.getD_cons_zero]
    rw [shiftLeft8_lor_eq _ _ (Nat.mod_lt _ (by norm_num))]
    omega
  · rw [hB3, hA3, hih]
    refine bufBytes_eq_of_getD _ _ _ ?_
    intro i hi
    rw [show (0 : Nat) + 3 + i = 0 + (3 + i) from by omega]
    rw [writeBytes_getD st'.RX_BUFFER 0 _ (3 + i)
      (by simp only [List.length_cons]; omega)]
    rw [show 3 + i = i + 1 + 1 + 1 from by omega]
    rfl

/-- Closed witness for C1: the two-byte record `[123, 97]` (encoded length 2,
neither length byte nor first byte the start token) survives the round trip
under the schedule `[255]`. -/
theorem C1_round_trip_witness :
    (enqueue_for_transmit ⟨jsonish.encode [123, 97], false⟩
      (initComm ([] : List Nat))).1 = .TX_SUCCESS
    ∧ ((round_trip jsonish [123, 97] [] [255]).map (fun p => (p.1, p.2.rx_data)))
      = some (.PACKET_RECEIVED, [123, 97]) :=
  C1_round_trip jsonish [123, 97] [] [255] (by decide) (by decide) (by decide)
    (by decide) (by decide) (by decide)

/-- Counterexample to C1 as stated: the 36-byte record
`123 :: List.replicate 35 97` is encodable with size well below the transmit
capacity minus 3 and decodes back to itself, yet the round trip under the
fully draining schedule `[255]` ends with `MESSAGE_EXCEEDS_RX_BUFFER_SIZE`,
not `PACKET_RECEIVED`: the low byte of the encoded length 36 is the
start-token value, so the receiver restarts the frame at the length byte and
misreads the following bytes as a huge declared length. -/
theorem C1_round_trip_counterexample :
    (jsonish.encode (123 :: List.replicate 35 97)).length = 36
    ∧ (jsonish.encode (123 :: List.replicate 35 97)).length ≤ TX_BUFFER_SIZE - 3
    ∧ jsonish.decode (jsonish.encode (123 :: List.replicate 35 97))
        = some (123 :: List.replicate 35 97)
    ∧ ((round_trip jsonish (123 :: List.replicate 35 97) [] [255]).map Prod.fst)
      = some .MESSAGE_EXCEEDS_RX_BUFFER_SIZE := by
  refine ⟨by decide, by decide, by decide, by decide⟩

theorem writeBytes_one_at (buf : Nat → Nat) (p b : Nat) :
    writeBytes buf p [b] p = b :=
  writeBytes_getD buf p [b] 0 (by simp)

theorem feed_poll_cons_some {ρ : Type} (codec : Codec ρ) (b : Nat) (rest : List Nat)
    (st st2 : CommState ρ) (c : ReceiveCode)
    (h : receive_packet codec ((rx_read_from_serial_to_local_buffer [b] st).1)
      = some (c, st2)) :
    feed_poll codec (b :: rest) st
      = (some c :: (feed_poll codec rest st2).1, (feed_poll codec rest st2).2) := by
  simp only [feed_poll, h]

theorem feed_poll_body {ρ : Type} (codec : Codec ρ) :
    ∀ (rest : List Nat) (st : CommState ρ) (r : ρ),
      st.rx_state = 3 →
      st.rx_buf_tail = st.rx_buf_head →
      st.rx_buf_head + rest.length = st.rx_message_start + st.rx_message_length →
      st.rx_message_start ≤ st.rx_buf_head →
      rest ≠ [] →
      (∀ b ∈ rest, b ≠ PACKET_START_TOKEN) →
      st.rx_buf_head + rest.length ≤ RX_BUFFER_SIZE →
      st.rx_message_length < 65536 →
      codec.decode (bufBytes (writeBytes st.RX_BUFFER st.rx_buf_head rest)
          st.rx_message_start st.rx_message_length) = some r →
      (feed_poll codec rest st).1
          = List.replicate (rest.length - 1) (some ReceiveCode.RX_IN_PROGRESS)
            ++ [some ReceiveCode.PACKET_RECEIVED]
        ∧ (feed_poll codec rest st).2.rx_data = r := by
  intro rest
  induction rest with
  | nil => intro st r _ _ _ _ hne _ _ _ _; exact absurd rfl hne
  | cons b rest' ih =>
    intro st r hst htl hsum hms _ hok hcap hmlen hdec
    obtain ⟨buf, tail, head, state, mst, mlen, data, txb, txt, txh, msgb, led, dg, rs⟩ := st
    simp only at hst htl hsum hms hok hcap hmlen hdec ⊢
    subst hst
    have htl2 : head = tail := htl.symm
    subst htl2
    have hb36 : b ≠ PACKET_START_TOKEN := hok b (by simp)
    have hrd : (rx_read_from_serial_to_local_buffer [b]
        (⟨buf, head, head, 3, mst, mlen, data, txb, txt, txh, msgb, led, dg,
          rs⟩ : CommState ρ)).1
        = ⟨writeBytes buf head [b], head, head + 1, 3, mst, mlen, data, txb, txt, txh,
            msgb, led, dg, rs⟩ := by
      rw [rx_read_spec _ _
        (by show head + [b].length ≤ RX_BUFFER_SIZE
            simp only [List.length_cons, List.length_nil, List.length_cons] at hcap ⊢
            omega)
        (by simp)]
      rfl
    cases rest' with
    | nil =>
      simp only [List.length_cons, List.length_nil] at hsum hcap
      have hrc := receive_step_body_complete_ok codec
        (⟨writeBytes buf head [b], head, head + 1, 3, mst, mlen, data, txb, txt, txh,
          msgb, led, dg, rs⟩ : CommState ρ) r
        (by show head < head + 1; omega)
        (by show writeBytes buf head [b] head ≠ PACKET_START_TOKEN
            rw [writeBytes_one_at]; exact hb36)
        rfl
        (by show mlen + mst = head + 1; omega)
        hmlen
        (by show mst < 4294967296; rw [RX_BUFFER_SIZE] at hcap; omega)
        (by show head + 1 < 4294967296; rw [RX_BUFFER_SIZE] at hcap; omega)
        hdec
      have hfp := feed_poll_cons_some codec b [] _ _ _ (by rw [hrd]; exact hrc)
      constructor
      · rw [hfp]
        rfl
      · rw [hfp]
        rfl
    | cons c2 rest'' =>
      simp only [List.length_cons] at hsum hcap
      have hrc := receive_step_body_wait codec
        (⟨writeBytes buf head [b], head, head + 1, 3, mst, mlen, data, txb, txt, txh,
          msgb, led, dg, rs⟩ : CommState ρ)
        (by show head < head + 1; omega)
        (by show writeBytes buf head [b] head ≠ PACKET_START_TOKEN
            rw [writeBytes_one_at]; exact hb36)
        rfl
        (by show head + 1 < mlen + mst; omega)
        hmlen
        (by show mst < 4294967296; rw [RX_BUFFER_SIZE] at hcap; omega)
        (by show head + 1 < 4294967296; rw [RX_BUFFER_SIZE] at hcap; omega)
      have hrc' : receive_packet codec
          (⟨writeBytes buf head [b], head, head + 1, 3, mst, mlen, data, txb, txt, txh,
            msgb, led, dg, rs⟩ : CommState ρ)
          = some (.RX_IN_PROGRESS,
            ⟨writeBytes buf head [b], head + 1, head + 1, 3, mst, mlen, data, txb, txt,
              txh, msgb, led, dg, rs⟩) := by
        rw [hrc]
        rw [show min
            ((⟨writeBytes buf head [b], head, head + 1, 3, mst, mlen, data, txb, txt,
              txh, msgb, led, dg, rs⟩ : CommState ρ).rx_message_length
              + (⟨writeBytes buf head [b], head, head + 1, 3, mst, mlen, data, txb, txt,
                txh, msgb, led, dg, rs⟩ : CommState ρ).rx_message_start)
            (⟨writeBytes buf head [b], head, head + 1, 3, mst, mlen, data, txb, txt,
              txh, msgb, led, dg, rs⟩ : CommState ρ).rx_buf_head
            = head + 1 from by show min (mlen + mst) (head + 1) = head + 1; omega]
      have hfp := feed_poll_cons_some codec b (c2 :: rest'') _ _ _
        (by rw [hrd]; exact hrc')
      have hone : writeBytes buf head [b] = fun i => if i = head then b else buf i :=
        (writeBytes_cons buf head b []).trans (writeBytes_nil _ _)
      obtain ⟨ih1, ih2⟩ := ih
        (⟨writeBytes buf head [b], head + 1, head + 1, 3, mst, mlen, data, txb, txt,
          txh, msgb, led, dg, rs⟩ : CommState ρ) r
        rfl rfl
        (by show (head + 1) + (c2 :: rest'').length = mst + mlen
            simp only [List.length_cons]; omega)
        (by show mst ≤ head + 1; omega)
        (by simp)
        (fun x hx => hok x (List.mem_cons_of_mem b hx))
        (by show (head + 1) + (c2 :: rest'').length ≤ RX_BUFFER_SIZE
            simp only [List.length_cons]; omega)
        hmlen
        (by show codec.decode (bufBytes
              (writeBytes (writeBytes buf head [b]) (head + 1) (c2 :: rest'')) mst mlen)
            = some r
            rw [hone, ← writeBytes_cons buf head b (c2 :: rest'')]
            exact hdec)
      constructor
      · rw [hfp]
        show some ReceiveCode.RX_IN_PROGRESS
            :: (feed_poll codec (c2 :: rest'')
              (⟨writeBytes buf head [b], head + 1, head + 1, 3, mst, mlen, data, txb,
                txt, txh, msgb, led, dg, rs⟩ : CommState ρ)).1 = _
        rw [ih1]
        simp only [List.length_cons, Nat.add_sub_cancel, List.replicate_succ,
          List.cons_append]
      · rw [hfp]
        show (feed_poll codec (c2 :: rest'')
            (⟨writeBytes buf head [b], head + 1, head + 1, 3, mst, mlen, data, txb,
              txt, txh, msgb, led, dg, rs⟩ : CommState ρ)).2.rx_data = r
        exact ih2

/-- C3 (corrected): resumability holds only for frames none of whose bytes
after the start token equals the start-token value: with the two length
bytes and every payload byte different from `'$'` (a restriction missing
from the claim — byte-at-a-time delivery places every payload byte at an
inspection position), feeding one byte at a time and polling after each byte
yields `RX_IN_PROGRESS` on every call but the last and `PACKET_RECEIVED` on
the call supplied with the final payload byte, with the same decoded record
as feeding the whole frame at once and polling once. -/
theorem C3_resumability {ρ : Type} (codec : Codec ρ) (r0 r : ρ) (hi lo : Nat)
    (payload : List Nat)
    (hhi : hi ≠ PACKET_START_TOKEN)
    (hlo : lo ≠ PACKET_START_TOKEN)
    (hptok : ∀ b ∈ payload, b ≠ PACKET_START_TOKEN)
    (hlen : (hi <<< 8) ||| lo = payload.length)
    (hlen1 : 1 ≤ payload.length)
    (hlen2 : payload.length ≤ RX_BUFFER_SIZE - 3)
    (hdec : codec.decode payload = some r) :
    (feed_poll codec (PACKET_START_TOKEN :: hi :: lo :: payload) (initComm r0)).1
        = List.replicate (payload.length + 2) (some ReceiveCode.RX_IN_PROGRESS)
          ++ [some ReceiveCode.PACKET_RECEIVED]
    ∧ (feed_poll codec (PACKET_START_TOKEN :: hi :: lo :: payload)
        (initComm r0)).2.rx_data = r
    ∧ ((receive_packet codec
        ((rx_read_from_serial_to_local_buffer (PACKET_START_TOKEN :: hi :: lo :: payload)
          (initComm r0)).1)).map (fun p => (p.1, p.2.rx_data)))
        = some (.PACKET_RECEIVED, r) := by
  have hlen' : payload.length ≤ 1497 := by rw [RX_BUFFER_SIZE] at hlen2; omega
  have hr1 : (rx_read_from_serial_to_local_buffer [PACKET_START_TOKEN]
      (initComm r0)).1 = c3S1 r0 := by
    rw [rx_read_spec _ _
      (by show (0 : Nat) + 1 ≤ RX_BUFFER_SIZE; rw [RX_BUFFER_SIZE]; omega)
      (by simp)]
    rfl
  have hrc1 : receive_packet codec (c3S1 r0) = some (.RX_IN_PROGRESS, c3S1b r0) := by
    rw [receive_step_token0 codec (c3S1 r0) rfl rfl rfl]
    rfl
  have hs1 := feed_poll_cons_some codec PACKET_START_TOKEN (hi :: lo :: payload)
    (initComm r0) (c3S1b r0) .RX_IN_PROGRESS (by rw [hr1]; exact hrc1)
  have hr2 : (rx_read_from_serial_to_local_buffer [hi] (c3S1b r0)).1 = c3S2 hi r0 := by
    rw [rx_read_spec _ _
      (by show (1 : Nat) + 1 ≤ RX_BUFFER_SIZE; rw [RX_BUFFER_SIZE]; omega)
      (by simp)]
    rfl
  have hrc2 : receive_packet codec (c3S2 hi r0)
      = some (.RX_IN_PROGRESS, c3S2b hi r0) := by
    rw [receive_step_len1 codec (c3S2 hi r0) rfl (by exact hhi) rfl]
    rfl
  have hs2 := feed_poll_cons_some codec hi (lo :: payload) (c3S1b r0) (c3S2b hi r0)
    .RX_IN_PROGRESS (by rw [hr2]; exact hrc2)
  have hr3 : (rx_read_from_serial_to_local_buffer [lo] (c3S2b hi r0)).1
      = c3S3 hi lo r0 := by
    rw [rx_read_spec _ _
      (by show (2 : Nat) + 1 ≤ RX_BUFFER_SIZE; rw [RX_BUFFER_SIZE]; omega)
      (by simp)]
    rfl
  have hno : ¬ ((c3S3 hi lo r0).rx_message_length
      ||| (c3S3 hi lo r0).RX_BUFFER (c3S3 hi lo r0).rx_buf_tail > RX_BUFFER_SIZE) := by
    show ¬ ((hi <<< 8) ||| lo > RX_BUFFER_SIZE)
    rw [hlen, RX_BUFFER_SIZE]
    omega
  have hrc3 : receive_packet codec (c3S3 hi lo r0)
      = some (.RX_IN_PROGRESS, c3S3b hi lo r0) := by
    rw [receive_step_len2_ok codec (c3S3 hi lo r0) rfl (by exact hlo) rfl hno]
    rfl
  have hs3 := feed_poll_cons_some codec lo payload (c3S2b hi r0) (c3S3b hi lo r0)
    .RX_IN_PROGRESS (by rw [hr3]; exact hrc3)
  have hpm : bufBytes (writeBytes (c3W3 hi lo) 3 payload) 3 payload.length = payload :=
    bufBytes_eq_of_getD _ _ _ (fun i hi2 => writeBytes_getD (c3W3 hi lo) 3 payload i hi2)
  obtain ⟨hb1, hb2⟩ := feed_poll_body codec payload (c3S3b hi lo r0) r
    rfl rfl
    (by show 3 + payload.length = 3 + ((hi <<< 8) ||| lo); rw [hlen])
    (by show (3 : Nat) ≤ 3; omega)
    (by intro hcon; rw [hcon] at hlen1; simp at hlen1)
    hptok
    (by show 3 + payload.length ≤ RX_BUFFER_SIZE; rw [RX_BUFFER_SIZE]; omega)
    (by show (hi <<< 8) ||| lo < 65536; rw [hlen]; omega)
    (by show codec.decode
          (bufBytes (writeBytes (c3W3 hi lo) 3 payload) 3 ((hi <<< 8) ||| lo)) = some r
        rw [hlen, hpm]
        exact hdec)
  refine ⟨?_, ?_, ?_⟩
  · simp only [hs1, hs2, hs3, hb1]
    obtain ⟨m, hm⟩ : ∃ m, payload.length = m + 1 := ⟨payload.length - 1, by omega⟩
    rw [hm]
    simp only [Nat.add_sub_cancel]
    rw [show m + 1 + 2 = m + 1 + 1 + 1 from by omega]
    simp only [List.replicate_succ, List.cons_append]
  · simp only [hs1, hs2, hs3]
    exact hb2
  · obtain ⟨hB3, hH3, hT3, hS3⟩ := rx_read_fields
      (PACKET_START_TOKEN :: hi :: lo :: payload) (initComm r0)
      (by show 0 + (PACKET_START_TOKEN :: hi :: lo :: payload).length ≤ RX_BUFFER_SIZE
          simp only [List.length_cons]
          rw [RX_BUFFER_SIZE]
          omega)
    have hzero : (initComm r0).rx_buf_head = 0 := rfl
    rw [hzero] at hB3 hH3
    refine receive_complete_frame codec _ 0 payload r ?_ ?_ ?_ ?_ ?_ ?_ ?_ ?_ ?_ hlen1
      (by rw [RX_BUFFER_SIZE]; omega) (Nat.zero_le _) hdec
    · rw [hS3]
      rfl
    · rw [hT3]
      rfl
    · rw [hH3]
      simp only [List.length_cons]
      omega
    · rw [hB3]
      exact (writeBytes_getD _ 0 _ 0 (by simp)).trans rfl
    · rw [hB3, writeBytes_getD _ 0 _ 1 (by simp)]
      exact hhi
    · rw [hB3, writeBytes_getD _ 0 _ 2 (by simp)]
      exact hlo
    · rw [hB3, writeBytes_getD _ 0 _ 3 (by simp only [List.length_cons]; omega)]
      cases payload with
      | nil => simp at hlen1
      | cons a l => exact hptok a (by simp)
    · rw [hB3, writeBytes_getD _ 0 _ 1 (by simp), writeBytes_getD _ 0 _ 2 (by simp)]
      simp only [List.getD_cons_succ, List.getD_cons_zero]
      exact hlen
    · rw [hB3]
      refine bufBytes_eq_of_getD _ _ _ ?_
      intro i hi2
      rw [show (0 : Nat) + 3 + i = 0 + (3 + i) from by omega]
      rw [writeBytes_getD _ 0 _ (3 + i) (by simp only [List.length_cons]; omega)]
      rw [show 3 + i = i + 1 + 1 + 1 from by omega]
      rfl

/-- Closed witness for C3: the frame `$ 00 02 123 97` (length 2, no byte
after the token equal to the token) fed byte-by-byte yields four
`RX_IN_PROGRESS` polls then `PACKET_RECEIVED`, with the same record
`[123, 97]` as the all-at-once reception. -/
theorem C3_resumability_witness :
    (feed_poll jsonish (PACKET_START_TOKEN :: 0 :: 2 :: [123, 97])
        (initComm ([] : List Nat))).1
      = List.replicate 4 (some ReceiveCode.RX_IN_PROGRESS)
        ++ [some ReceiveCode.PACKET_RECEIVED]
    ∧ (feed_poll jsonish (PACKET_START_TOKEN :: 0 :: 2 :: [123, 97])
        (initComm ([] : List Nat))).2.rx_data = [123, 97]
    ∧ ((receive_packet jsonish
        ((rx_read_from_serial_to_local_buffer (PACKET_START_TOKEN :: 0 :: 2 :: [123, 97])
          (initComm ([] : List Nat))).1)).map (fun p => (p.1, p.2.rx_data)))
        = some (.PACKET_RECEIVED, [123, 97]) :=
  C3_resumability jsonish ([] : List Nat) [123, 97] 0 2 [123, 97]
    (by decide) (by decide) (by decide) (by decide) (by decide) (by decide) (by decide)

/-- Counterexample to C3 as stated: the frame `$ 00 02 123 36` is valid (its
declared length matches, it fits the buffer, and fed at once it is decoded:
the all-at-once poll returns `PACKET_RECEIVED` with record `[123, 36]`), yet
fed one byte at a time every one of the five polls returns `RX_IN_PROGRESS`
and none returns `PACKET_RECEIVED`: the second payload byte `36` sits at an
inspection position and silently restarts the frame. -/
theorem C3_resumability_counterexample :
    ((receive_packet jsonish
      ((rx_read_from_serial_to_local_buffer [36, 0, 2, 123, 36]
        (initComm ([] : List Nat))).1)).map (fun p => (p.1, p.2.rx_data)))
      = some (.PACKET_RECEIVED, [123, 36])
    ∧ (feed_poll jsonish [36, 0, 2, 123, 36] (initComm ([] : List Nat))).1
      = [some .RX_IN_PROGRESS, some .RX_IN_PROGRESS, some .RX_IN_PROGRESS,
         some .RX_IN_PROGRESS, some .RX_IN_PROGRESS] := by
  refine ⟨by decide, by decide⟩
